import Mathlib

/-!
Verification of the OA_Server_Manager event-pipeline core.

This file gives a shallow embedding, in Lean 4, of the parts of the
repository that carry real invariants: the Python string primitives the
parsers rely on (`str.strip`, `str.split`, `int(...)`), the two IP
validators, the round state machine (`core/game/state_manager.py`), the
shutdown strategies (`core/server/shutdown_strategies.py`), the AMP
adapter's dedup cache and polling loop (`core/adapters/amp/adapter.py`),
the AMP status-block machine (`core/adapters/amp/message_processor.py`
and `status_parser.py`), the OpenArena message processor
(`core/adapters/openarena/message_processor.py`), and the network
manager's client registration (`core/network/network_manager.py`).

Console lines are newline-free by construction (the subprocess adapter
reads single lines; the AMP adapter splits entries on newline before
parsing), so regex anchors `^`/`$` are modelled as start/end of string.
-/

/-! ## Python string primitives -/

/-- ASCII whitespace recognised by Python `str.strip()` / `str.split()`. -/
def pyIsSpace (c : Char) : Bool :=
  c == ' ' || c == '\t' || c == '\n' || c == '\r' || c == '\x0b' || c == '\x0c'

/-- `str.strip()` on a character list: drop whitespace at both ends. -/
def pyStripChars (cs : List Char) : List Char :=
  ((cs.dropWhile pyIsSpace).reverse.dropWhile pyIsSpace).reverse

/-- Python `str.strip()`. -/
def pyStrip (s : String) : String := String.mk (pyStripChars s.data)

/-- Split a character list on a separator character; keeps empty chunks,
    mirroring Python `str.split(sep)`. -/
def splitOnCharAux (sep : Char) : List Char → List Char → List (List Char)
  | [], acc => [acc.reverse]
  | c :: rest, acc =>
      if c == sep then acc.reverse :: splitOnCharAux sep rest []
      else splitOnCharAux sep rest (c :: acc)

/-- Python `s.split(sep)` for a one-character separator. -/
def pySplitChar (s : String) (sep : Char) : List String :=
  (splitOnCharAux sep s.data []).map String.mk

/-- Python whitespace split `str.split()`: split on whitespace runs,
    dropping empty fields. -/
def pySplitWsChars : List Char → List (List Char)
  | [] => []
  | c :: rest =>
      if pyIsSpace c then pySplitWsChars rest
      else
        match pySplitWsChars rest with
        | [] => [[c]]
        | w :: ws =>
            match rest with
            | [] => [[c]]
            | d :: _ => if pyIsSpace d then [c] :: w :: ws else (c :: w) :: ws

/-- Python `str.split()` (no separator argument). -/
def pySplitWs (s : String) : List String :=
  (pySplitWsChars s.data).map String.mk

/-- Value of a most-significant-digit-first digit list. -/
def digitsVal (ds : List Char) : Nat :=
  ds.foldl (fun a c => a * 10 + (c.toNat - 48)) 0

/-- CPython `int(...)` digit grammar after the first digit: digits with
    single underscores allowed only between digits. Returns the digits
    with underscores removed. -/
def usDigitsAfter : List Char → Option (List Char)
  | [] => some []
  | c :: rest =>
      if c == '_' then
        match rest with
        | d :: rest2 =>
            if d.isDigit then (usDigitsAfter rest2).map (fun ds => d :: ds) else none
        | [] => none
      else if c.isDigit then (usDigitsAfter rest).map (fun ds => c :: ds) else none

/-- Parse an unsigned decimal integer the way CPython `int(str)` does
    (first char must be a digit; `_` grouping allowed between digits). -/
def pyIntNat (cs : List Char) : Option Nat :=
  match cs with
  | [] => none
  | c :: _ => if c.isDigit then (usDigitsAfter cs).map digitsVal else none

/-- Signed integer body of CPython `int(str)` after stripping. -/
def pyIntChars : List Char → Option Int
  | [] => none
  | c :: rest =>
      if c == '+' then (pyIntNat rest).map (fun n => (n : Int))
      else if c == '-' then (pyIntNat rest).map (fun n => -(n : Int))
      else (pyIntNat (c :: rest)).map (fun n => (n : Int))

/-- CPython `int(s)` for a string: whitespace-stripped, optional sign,
    decimal digits. `none` models a raised `ValueError`. -/
def pyInt (s : String) : Option Int := pyIntChars (pyStripChars s.data)

/-- Is `pre` a prefix of `l` (character lists, Boolean)? -/
def listPre : List Char → List Char → Bool
  | [], _ => true
  | _ :: _, [] => false
  | a :: as_, b :: bs => a == b && listPre as_ bs

/-- Python substring containment `needle in hay` on character lists. -/
def containsSub (hay needle : List Char) : Bool :=
  listPre needle hay ||
    (match hay with
     | [] => false
     | _ :: t => containsSub t needle)

/-- Python `needle in hay` for strings. -/
def pyContains (hay needle : String) : Bool := containsSub hay.data needle.data

/-- Python `s.startswith(pre)` for strings. -/
def pyStartsWith (s pre : String) : Bool := listPre pre.data s.data

/-- Python `str.isdigit()` restricted to ASCII: nonempty, all digits. -/
def pyIsDigitStr (s : String) : Bool :=
  !s.data.isEmpty && s.data.all Char.isDigit

/-! ## IP validators (C9)

`OAStatusParser._is_valid_ip` (core/adapters/openarena/status_parser.py)
and `AMPStatusParser._is_valid_ip` (core/adapters/amp/status_parser.py).
-/

/-- The per-octet loop of `OAStatusParser._is_valid_ip`: `int(part)`
    raising `ValueError` is caught and yields `False`; an out-of-range
    octet returns `False` early. -/
def oaCheckParts : List String → Bool
  | [] => true
  | p :: rest =>
      match pyInt p with
      | none => false
      | some n => if n < 0 || n > 255 then false else oaCheckParts rest

/-- `OAStatusParser._is_valid_ip`. -/
def oaIsValidIp (ip : String) : Bool :=
  if ip.data.isEmpty then false
  else
    let parts := pySplitChar ip '.'
    if parts.length ≠ 4 then false else oaCheckParts parts

/-- The `all(0 <= int(p) <= 255 for p in parts)` body of
    `AMPStatusParser._is_valid_ip`; any exception yields `False`. -/
def ampCheckParts : List String → Bool
  | [] => true
  | p :: rest =>
      match pyInt p with
      | none => false
      | some n => if 0 ≤ n && n ≤ 255 then ampCheckParts rest else false

/-- `AMPStatusParser._is_valid_ip`. -/
def ampIsValidIp (ip : String) : Bool :=
  let parts := pySplitChar ip '.'
  if parts.length ≠ 4 then false else ampCheckParts parts

/-- Join segments with a dot separator (builds the dotted-quad input). -/
def joinDots : List String → String
  | [] => ""
  | [s] => s
  | s :: rest => s ++ "." ++ joinDots rest

/-! ## Round state machine (C2, C6)

`GameStateManager` in core/game/state_manager.py. `settings.latencies`
and `settings.repeats` are abstracted as the two constructor arguments.
-/

inductive GameState
  | WAITING
  | WARMUP
  | RUNNING
deriving DecidableEq, Repr

structure StateResult where
  state_changed : Bool
  actions : List String
deriving DecidableEq, Repr

structure ShutdownResult where
  round_completed : Bool
  experiment_finished : Bool
  actions : List String
deriving DecidableEq, Repr

structure GameStateManager where
  current_state : GameState
  round_count : Nat
  warmup_round_count : Nat
  max_rounds : Nat
deriving DecidableEq, Repr

/-- `GameStateManager.__init__`: state WAITING, `round_count = 1`,
    `max_rounds = len(settings.latencies) * settings.repeats`. -/
def initGameStateManager (latencyCount repeats : Nat) : GameStateManager :=
  { current_state := GameState.WAITING
    round_count := 1
    warmup_round_count := 0
    max_rounds := latencyCount * repeats }

/-- `GameStateManager.handle_warmup_detected`. -/
def handle_warmup_detected (m : GameStateManager) : GameStateManager × StateResult :=
  match m.current_state with
  | GameState.WAITING =>
      ({ m with current_state := GameState.WARMUP },
       { state_changed := true, actions := [] })
  | GameState.WARMUP => (m, { state_changed := false, actions := [] })
  | GameState.RUNNING =>
      ({ m with current_state := GameState.WARMUP },
       { state_changed := true, actions := [] })

/-- `GameStateManager.handle_game_initialization_detected`. -/
def handle_game_initialization_detected (m : GameStateManager) :
    GameStateManager × StateResult :=
  ({ m with current_state := GameState.RUNNING },
   { state_changed := true, actions := [] })

/-- `GameStateManager.handle_match_start_detected`. -/
def handle_match_start_detected (m : GameStateManager) :
    GameStateManager × StateResult :=
  if m.current_state = GameState.WARMUP then
    ({ m with current_state := GameState.RUNNING },
     { state_changed := true,
       actions := ["start_match_recording", "apply_latency"] })
  else (m, { state_changed := false, actions := [] })

/-- `GameStateManager.handle_match_shutdown_detected`. -/
def handle_match_shutdown_detected (m : GameStateManager) :
    GameStateManager × ShutdownResult :=
  if m.current_state = GameState.RUNNING then
    let rc := m.round_count + 1
    if rc ≥ m.max_rounds then
      ({ m with round_count := rc },
       { round_completed := false, experiment_finished := true, actions := [] })
    else
      ({ m with round_count := rc },
       { round_completed := true, experiment_finished := false,
         actions := ["rotate_latency"] })
  else
    (m, { round_completed := false, experiment_finished := false, actions := [] })

/-- `GameStateManager.transition_to`. -/
def transition_to (m : GameStateManager) (s : GameState) : GameStateManager :=
  { m with current_state := s }

/-- `GameStateManager.reset_to_waiting`. -/
def reset_to_waiting (m : GameStateManager) : GameStateManager :=
  transition_to m GameState.WAITING

/-- Every public state-mutating operation of `GameStateManager`. -/
inductive GSMOp
  | warmupDetected
  | gameInitializationDetected
  | matchStartDetected
  | matchShutdownDetected
  | transitionTo (s : GameState)
  | resetToWaiting
deriving DecidableEq, Repr

/-- One operation applied to the state manager. -/
def gsmStep (m : GameStateManager) : GSMOp → GameStateManager
  | GSMOp.warmupDetected => (handle_warmup_detected m).1
  | GSMOp.gameInitializationDetected => (handle_game_initialization_detected m).1
  | GSMOp.matchStartDetected => (handle_match_start_detected m).1
  | GSMOp.matchShutdownDetected => (handle_match_shutdown_detected m).1
  | GSMOp.transitionTo s => transition_to m s
  | GSMOp.resetToWaiting => reset_to_waiting m

/-! ## Shutdown strategies (C3)

`MatchShutdownStrategy.handle` and `WarmupShutdownStrategy.handle` in
core/server/shutdown_strategies.py. The adapter collaborators that the
strategies only trigger (OBS recording, latency rules, game manager)
are recorded as effects; the round state machine is embedded above.
-/

/-- Side effects a strategy invocation requests from its collaborators. -/
structure StrategyEffects where
  async_scheduled : List String
  commands_sent : List String
  latencies_rotated : Bool
  latency_rules_applied : Bool
  next_round_with_warmup : Bool
deriving DecidableEq, Repr

/-- The adapter state a shutdown strategy reads and mutates. -/
structure AdapterState where
  gsm : GameStateManager
  insufficient_humans : Bool
  network_enabled : Bool
deriving DecidableEq, Repr

/-- `MatchShutdownStrategy.handle`: stop recording, advance the round
    state machine, rotate latencies if requested, send the terminal or
    completion command, then reset to WAITING. -/
def matchShutdownHandle (a : AdapterState) : AdapterState × StrategyEffects :=
  let async1 := ["stop_match_recording"]
  let r := handle_match_shutdown_detected a.gsm
  let rotated := r.2.actions.contains "rotate_latency"
  let cmd := if r.2.experiment_finished then "killserver" else "say Match completed!"
  let gsm2 := reset_to_waiting r.1
  ({ a with gsm := gsm2 },
   { async_scheduled := async1
     commands_sent := [cmd]
     latencies_rotated := rotated
     latency_rules_applied := false
     next_round_with_warmup := false })

/-- `WarmupShutdownStrategy.handle`: if the human-player threshold is
    unmet, re-arm another warmup round and return early (no state
    reset); otherwise run match start, schedule recording / latency
    application as requested, then reset to WAITING. -/
def warmupShutdownHandle (a : AdapterState) : AdapterState × StrategyEffects :=
  if a.insufficient_humans then
    (a,
     { async_scheduled := []
       commands_sent := []
       latencies_rotated := false
       latency_rules_applied := false
       next_round_with_warmup := true })
  else
    let r := handle_match_start_detected a.gsm
    let async1 :=
      if r.2.actions.contains "start_match_recording" then ["start_match_recording"]
      else []
    let applied := r.2.actions.contains "apply_latency" && a.network_enabled
    let gsm2 := reset_to_waiting r.1
    ({ a with gsm := gsm2 },
     { async_scheduled := async1
       commands_sent := []
       latencies_rotated := false
       latency_rules_applied := applied
       next_round_with_warmup := false })

/-! ## AMP dedup cache and polling loop (C1, C7)

`AMPGameAdapter.read_messages` in core/adapters/amp/adapter.py.
`_seen_messages` is an `OrderedDict[str, None]` used as an
insertion-ordered set, modelled as the list of its keys;
`_max_seen_cache = 1000`.
-/

/-- One console entry returned by `Core.GetUpdates`; `timestamp` stands
    for `entry.timestamp.isoformat()`. -/
structure ConsoleEntry where
  timestamp : String
  contents : String
deriving DecidableEq, Repr

/-- `msg_key = f"{entry.timestamp.isoformat()}:{entry.contents}"`. -/
def msgKey (e : ConsoleEntry) : String := e.timestamp ++ ":" ++ e.contents

/-- The keys of `_seen_messages` in insertion order. -/
abbrev SeenCache := List String

/-- `while len(self._seen_messages) > self._max_seen_cache:
    self._seen_messages.popitem(last=False)` — evict oldest first. -/
def evictWhile (maxSize : Nat) : SeenCache → SeenCache
  | [] => []
  | k :: rest =>
      if (k :: rest).length > maxSize then evictWhile maxSize rest else k :: rest

/-- Record a key then run the eviction loop. -/
def cacheInsert (maxSize : Nat) (c : SeenCache) (k : String) : SeenCache :=
  evictWhile maxSize (c ++ [k])

/-- `entry.contents.split("\n")` filtered by `if line.strip():` — the
    lines of an entry that each produce exactly one yielded message. -/
def entryLines (e : ConsoleEntry) : List String :=
  (pySplitChar e.contents '\n').filter (fun l => pyStrip l ≠ "")

/-- Handle one console entry: a key already in the cache yields nothing;
    a fresh key is inserted (with eviction) and the entry's lines are
    emitted. -/
def processEntry (maxSize : Nat) (c : SeenCache) (e : ConsoleEntry) :
    SeenCache × List String :=
  let k := msgKey e
  if k ∈ c then (c, [])
  else (cacheInsert maxSize c k, entryLines e)

/-- Handle the console entries of one poll in order. -/
def processEntries (maxSize : Nat) (c : SeenCache) :
    List ConsoleEntry → SeenCache × List String
  | [] => (c, [])
  | e :: rest =>
      let r1 := processEntry maxSize c e
      let r2 := processEntries maxSize r1.1 rest
      (r2.1, r1.2 ++ r2.2)

/-- Outcome of one `Core.GetUpdates` poll: entries, or an `AMPAPIError`
    followed by a re-login attempt that succeeds or fails. -/
inductive PollResult
  | ok (entries : List ConsoleEntry)
  | rpcFailure (reloginOk : Bool)
deriving DecidableEq, Repr

/-- The polling loop body of `read_messages`: a successful poll is
    deduplicated and emitted; an RPC failure triggers one re-login —
    on success the loop continues (cache untouched), on failure it
    breaks. -/
def runPolls (maxSize : Nat) : SeenCache → List PollResult → SeenCache × List String
  | c, [] => (c, [])
  | c, PollResult.ok es :: rest =>
      let r1 := processEntries maxSize c es
      let r2 := runPolls maxSize r1.1 rest
      (r2.1, r1.2 ++ r2.2)
  | c, PollResult.rpcFailure true :: rest => runPolls maxSize c rest
  | _c, PollResult.rpcFailure false :: _ => (_c, [])

/-- `AMPGameAdapter.read_messages`: `seen` is the `_seen_messages`
    content at call time; the loop starts with
    `self._seen_messages.clear()`, so `seen` is discarded. -/
def read_messages (maxSize : Nat) (_seen : SeenCache) (polls : List PollResult) :
    SeenCache × List String :=
  runPolls maxSize [] polls

/-! ## Synchronous command dispatch (C8)

`GameAdapter.send_command_sync` in core/adapters/base.py, over a shallow
model of the asyncio primitives it calls.
-/

/-- Whether an asyncio event loop is running in the calling thread. -/
inductive AsyncContext
  | loopRunning (loopId : Nat)
  | noLoop
deriving DecidableEq, Repr

/-- A Python call that either returns or raises `RuntimeError`. -/
inductive PyResult (α : Type)
  | ok (a : α)
  | runtimeError
deriving DecidableEq, Repr

/-- `asyncio.get_running_loop()`: returns the running loop, raises
    `RuntimeError` when none is running. -/
def getRunningLoop : AsyncContext → PyResult Nat
  | AsyncContext.loopRunning l => PyResult.ok l
  | AsyncContext.noLoop => PyResult.runtimeError

/-- How the underlying `send_command(command)` coroutine was driven. -/
inductive CommandDelivery
  | scheduledOnLoop (loopId : Nat) (command : String)
  | ranToCompletion (command : String)
deriving DecidableEq, Repr

/-- `asyncio.run(coro)`: raises `RuntimeError` when called from a thread
    with a running loop, else creates a fresh one-shot loop and runs the
    coroutine to completion. -/
def asyncioRun (ctx : AsyncContext) (command : String) : PyResult CommandDelivery :=
  match ctx with
  | AsyncContext.loopRunning _ => PyResult.runtimeError
  | AsyncContext.noLoop => PyResult.ok (CommandDelivery.ranToCompletion command)

/-- `GameAdapter.send_command_sync`: try `get_running_loop`; schedule
    via `run_coroutine_threadsafe` on success (fire-and-forget, caller
    not blocked), fall back to `asyncio.run` on `RuntimeError`. -/
def send_command_sync (ctx : AsyncContext) (command : String) :
    PyResult CommandDelivery :=
  match getRunningLoop ctx with
  | PyResult.ok loop => PyResult.ok (CommandDelivery.scheduledOnLoop loop command)
  | PyResult.runtimeError => asyncioRun ctx command

/-! ## AMP status parser and message processor (C4)

`AMPStatusParser` (core/adapters/amp/status_parser.py) and
`AMPMessageProcessor` (core/adapters/amp/message_processor.py).
-/

/-- Message kinds constructed by the two message processors
    (`MessageType` in core/adapters/base.py, restricted to the values
    these processors emit). -/
inductive MessageType
  | CLIENT_CONNECT
  | CLIENT_DISCONNECT
  | GAME_INITIALIZATION
  | GAME_END
  | WARMUP_START
  | SERVER_SHUTDOWN
  | STATUS_UPDATE
  | UNKNOWN
deriving DecidableEq, Repr

/-- Client record built by `AMPStatusParser.parse_client_line`
    (`client_type` is the dict key `"type"`). -/
structure AMPClient where
  client_id : Int
  time : String
  ping : Int
  loss : Int
  state : String
  rate : Int
  ip : String
  address : String
  name : String
  client_type : String
deriving DecidableEq, Repr

/-- Split a character list at its leading digit run. -/
def takeDigits (cs : List Char) : List Char × List Char :=
  (cs.takeWhile Char.isDigit, cs.dropWhile Char.isDigit)

/-- Match `\d{1,3}` followed by the literal `sep` at the head of `cs`.
    The delimiter is not a digit, so the greedy repetition consumes the
    whole digit run; runs of length 0 or more than 3 cannot match. -/
def matchOctetThen (sep : Char) (cs : List Char) : Option (List Char × List Char) :=
  let ds := (takeDigits cs).1
  let rest := (takeDigits cs).2
  if ds.length = 0 || ds.length > 3 then none
  else
    match rest with
    | c :: rest2 => if c == sep then some (ds ++ [c], rest2) else none
    | [] => none

/-- Match the full pattern
    `\d{1,3}\.\d{1,3}\.\d{1,3}\.\d{1,3}:\d+` (`IP_PORT_PATTERN`)
    anchored at the head; returns the matched characters and the rest. -/
def matchIpPortAt (cs : List Char) : Option (List Char × List Char) :=
  match matchOctetThen '.' cs with
  | none => none
  | some (m1, r1) =>
    match matchOctetThen '.' r1 with
    | none => none
    | some (m2, r2) =>
      match matchOctetThen '.' r2 with
      | none => none
      | some (m3, r3) =>
        match matchOctetThen ':' r3 with
        | none => none
        | some (m4, r4) =>
          let ds := (takeDigits r4).1
          let r5 := (takeDigits r4).2
          if ds.length = 0 then none else some (m1 ++ m2 ++ m3 ++ m4 ++ ds, r5)

/-- `IP_PORT_PATTERN.search`: leftmost match. Returns
    (text before the match, matched text, text after the match). -/
def searchIpPort : List Char → List Char → Option (List Char × (List Char × List Char))
  | acc, cs =>
      match matchIpPortAt cs with
      | some (m, rest) => some (acc.reverse, (m, rest))
      | none =>
          match cs with
          | [] => none
          | c :: t => searchIpPort (c :: acc) t

/-- Python `s.strip(chars)`: drop characters of `cset` at both ends. -/
def stripSetChars (cset : List Char) (cs : List Char) : List Char :=
  ((cs.dropWhile (fun c => cset.contains c)).reverse.dropWhile
      (fun c => cset.contains c)).reverse

/-- `AMPStatusParser.parse_client_line`. A raised exception anywhere in
    the body is caught and yields `None`, as does each explicit early
    return. -/
def ampParseClientLine (line : String) : Option AMPClient :=
  if pyContains line " BOT " then none
  else
    match searchIpPort [] line.data with
    | none => none
    | some (before, (m, after)) =>
      let address := String.mk m
      let ip :=
        if pyContains address ":" then ((pySplitChar address ':').headD "") else address
      if !ampIsValidIp ip then none
      else
        let before_ip := (pySplitWsChars before).map String.mk
        if before_ip.length < 5 then none
        else
          match pyInt (before_ip.headD "") with
          | none => none
          | some cid =>
            let time_connected := before_ip.getD 1 ""
            let ping := (pyInt (before_ip.getD 2 "")).getD 0
            let loss := (pyInt (before_ip.getD 3 "")).getD 0
            let state := before_ip.getD 4 ""
            let rate :=
              if before_ip.length > 5 then
                let rate_str := before_ip.getD 5 ""
                if pyIsDigitStr rate_str then (pyInt rate_str).getD 0 else 0
              else 0
            let after_ip := pyStrip (String.mk after)
            let name := String.mk (stripSetChars ['\x27', '"', ' '] after_ip.data)
            some
              { client_id := cid
                time := time_connected
                ping := ping
                loss := loss
                state := state
                rate := rate
                ip := ip
                address := address
                name := name
                client_type := "HUMAN" }

/-- `PLAYER_SECTION_START in line`. -/
def ampIsStatusHeader (line : String) : Bool :=
  pyContains line "---------players--------"

/-- `line.strip() == PLAYER_SECTION_END`. -/
def ampIsSectionEnd (line : String) : Bool :=
  pyStrip line == "#end"

/-- `AMPStatusParser.is_column_header`. -/
def ampIsColumnHeader (line : String) : Bool :=
  pyContains line "id" && pyContains line "ping" &&
    pyContains line "adr" && pyContains line "name"

/-- Mutable state of `AMPMessageProcessor`. -/
structure AMPProcState where
  in_player_section : Bool
  collected_clients : List AMPClient
deriving DecidableEq, Repr

/-- `AMPMessageProcessor.__init__`. -/
def ampInit : AMPProcState :=
  { in_player_section := false, collected_clients := [] }

/-- The `data` dict of a `ParsedMessage` built by `AMPMessageProcessor`:
    empty, `{clients, status_complete: True}`, or `{client_data}`. -/
inductive AMPData
  | noData
  | clientsComplete (clients : List AMPClient)
  | clientData (c : AMPClient)
deriving DecidableEq, Repr

/-- A `ParsedMessage` as built by `AMPMessageProcessor`. -/
structure AMPMsg where
  message_type : MessageType
  raw_message : String
  data : AMPData
deriving DecidableEq, Repr

/-- `AMPMessageProcessor.process_message`. -/
def ampProcessMessage (st : AMPProcState) (raw : String) : AMPProcState × AMPMsg :=
  let raw := pyStrip raw
  if raw == "" then (st, ⟨MessageType.UNKNOWN, raw, AMPData.noData⟩)
  else if ampIsStatusHeader raw then
    ({ in_player_section := true, collected_clients := [] },
     ⟨MessageType.STATUS_UPDATE, raw, AMPData.noData⟩)
  else if st.in_player_section && ampIsSectionEnd raw then
    ({ in_player_section := false, collected_clients := [] },
     ⟨MessageType.STATUS_UPDATE, raw, AMPData.clientsComplete st.collected_clients⟩)
  else if st.in_player_section then
    if ampIsColumnHeader raw then (st, ⟨MessageType.STATUS_UPDATE, raw, AMPData.noData⟩)
    else
      match ampParseClientLine raw with
      | some c =>
          ({ st with collected_clients := st.collected_clients ++ [c] },
           ⟨MessageType.STATUS_UPDATE, raw, AMPData.clientData c⟩)
      | none => (st, ⟨MessageType.STATUS_UPDATE, raw, AMPData.noData⟩)
  else (st, ⟨MessageType.UNKNOWN, raw, AMPData.noData⟩)

/-- Feed a list of lines through `AMPMessageProcessor.process_message`. -/
def ampRun (st : AMPProcState) : List String → AMPProcState × List AMPMsg
  | [] => (st, [])
  | l :: ls =>
      let r1 := ampProcessMessage st l
      let r2 := ampRun r1.1 ls
      (r2.1, r1.2 :: r2.2)

/-! ## Network manager client registration (C10)

`NetworkManager.add_client` in core/network/network_manager.py. Python
dicts are modelled as insertion-ordered association lists with unique
keys: updating an existing key keeps its position, a new key appends.
-/

/-- Python dict assignment `d[k] = v`. -/
def dictSet {K V : Type} [BEq K] : List (K × V) → K → V → List (K × V)
  | [], k, v => [(k, v)]
  | (k0, v0) :: rest, k, v =>
      if k0 == k then (k0, v) :: rest else (k0, v0) :: dictSet rest k v

/-- Python dict lookup `d.get(k)`. -/
def dictGet {K V : Type} [BEq K] : List (K × V) → K → Option V
  | [], _ => none
  | (k0, v0) :: rest, k => if k0 == k then some v0 else dictGet rest k

/-- Python `k in d`. -/
def dictHasKey {K V : Type} [BEq K] (d : List (K × V)) (k : K) : Bool :=
  (dictGet d k).isSome

/-- `NetworkManager.BOT_NAMES`. -/
def BOT_NAMES : List String :=
  ["Angelyss", "Arachna", "Major", "Sarge", "Skelebot", "Merman", "Beret", "Kyonshi"]

/-- The client-tracking fields of `NetworkManager`. -/
structure NetworkManagerState where
  ip_latency_map : List (String × Int)
  client_ip_map : List (Int × String)
  client_type_map : List (Int × String)
  client_name_map : List (Int × String)
  obs_status_map : List (String × Bool)
  player_count : Nat
  human_count : Nat
  bot_count : Nat
deriving DecidableEq, Repr

/-- `NetworkManager.__init__` client-tracking fields. -/
def initNetworkManager : NetworkManagerState :=
  { ip_latency_map := [], client_ip_map := [], client_type_map := []
    client_name_map := [], obs_status_map := []
    player_count := 0, human_count := 0, bot_count := 0 }

/-- `NetworkManager.add_client`. `name = None` and `ip = None` are
    `none`; Python truthiness makes the empty string falsy too. -/
def add_client (m : NetworkManagerState) (client_id : Int) (ip : Option String)
    (latency : Option Int) (name : Option String) (is_bot : Bool) :
    NetworkManagerState :=
  let nameTruthy : Bool := match name with | some n => n != "" | none => false
  let is_bot := if nameTruthy && BOT_NAMES.contains (name.getD "") then true else is_bot
  let m :=
    { m with client_type_map :=
        dictSet m.client_type_map client_id (if is_bot then "BOT" else "HUMAN") }
  let m :=
    if nameTruthy then
      { m with client_name_map := dictSet m.client_name_map client_id (name.getD "") }
    else m
  let ipTruthy : Bool := match ip with | some s => s != "" | none => false
  if !is_bot && ipTruthy then
    let ipv := ip.getD ""
    let m :=
      if !dictHasKey m.ip_latency_map ipv then
        { m with
            client_ip_map := dictSet m.client_ip_map client_id ipv
            ip_latency_map := dictSet m.ip_latency_map ipv (latency.getD 0)
            obs_status_map := dictSet m.obs_status_map ipv false }
      else { m with client_ip_map := dictSet m.client_ip_map client_id ipv }
    let m :=
      { m with human_count :=
          (m.client_type_map.filter (fun (kv : Int × String) => kv.2 == "HUMAN")).length }
    { m with player_count := m.human_count + m.bot_count }
  else if is_bot then
    let m :=
      { m with bot_count :=
          (m.client_type_map.filter (fun (kv : Int × String) => kv.2 == "BOT")).length }
    { m with player_count := m.human_count + m.bot_count }
  else
    { m with player_count := m.human_count + m.bot_count }

/-! ## OpenArena message processor (C5)

`OAMessageProcessor` (core/adapters/openarena/message_processor.py) with
`OAStatusParser` (core/adapters/openarena/status_parser.py) and the base
`StatusParser` state (core/adapters/status_parser.py). The
`send_command("status")` side effect of the client-connect branch and
all logging are outside the modelled state.
-/

/-- Consume a literal prefix; `some rest` iff `cs = lit ++ rest`. -/
def dropLit : List Char → List Char → Option (List Char)
  | [], cs => some cs
  | _ :: _, [] => none
  | p :: ps, c :: cs => if c == p then dropLit ps cs else none

/-- Regex `^Client ([0-9]+) connecting with ([0-9]+) challenge ping$`:
    both repetitions are digit runs followed by a non-digit literal, so
    greedy matching consumes each full run. -/
def matchClientConnect (s : String) : Option (Nat × Nat) :=
  match dropLit ("Client ").data s.data with
  | none => none
  | some r1 =>
    let ds1 := (takeDigits r1).1
    let r2 := (takeDigits r1).2
    if ds1.length = 0 then none
    else
      match dropLit (" connecting with ").data r2 with
      | none => none
      | some r3 =>
        let ds2 := (takeDigits r3).1
        let r4 := (takeDigits r3).2
        if ds2.length = 0 then none
        else if r4 = (" challenge ping").data then some (digitsVal ds1, digitsVal ds2)
        else none

/-- Regex `^ClientDisconnect: ([0-9]+)$`. -/
def matchClientDisconnect (s : String) : Option Nat :=
  match dropLit ("ClientDisconnect: ").data s.data with
  | none => none
  | some r1 =>
    let ds := (takeDigits r1).1
    let r2 := (takeDigits r1).2
    if ds.length = 0 then none
    else if r2 = ([] : List Char) then some (digitsVal ds) else none

/-- Regex `^Exit: (Fraglimit|Timelimit) hit\.$`; returns
    `match.group(1).lower()`. -/
def matchGameEnd (s : String) : Option String :=
  if s = "Exit: Fraglimit hit." then some "fraglimit"
  else if s = "Exit: Timelimit hit." then some "timelimit"
  else none

/-- Group 1 of `^Warmup:\s*(.*)$`, stripped (the handler strips it). -/
def warmupInfo (s : String) : String :=
  pyStrip (String.mk ((dropLit ("Warmup:").data s.data).getD []))

/-- Group 1 of `^ShutdownGame:\s*(.*)$`, stripped. -/
def shutdownInfo (s : String) : String :=
  pyStrip (String.mk ((dropLit ("ShutdownGame:").data s.data).getD []))

/-- `OAStatusParser.is_status_header`. -/
def oaIsStatusHeader (line : String) : Bool :=
  pyContains line "num score ping name" && pyContains line "address"

/-- `OAStatusParser.is_separator`. -/
def oaIsSeparator (line : String) : Bool :=
  pyStartsWith line "---"

/-- Regex `^\s*\d+\s+` used to recognise a client data row. -/
def oaClientLineShape (s : String) : Bool :=
  let rest := s.data.dropWhile pyIsSpace
  let ds := (takeDigits rest).1
  let r2 := (takeDigits rest).2
  decide (0 < ds.length) &&
    (match r2 with
     | c :: _ => pyIsSpace c
     | [] => false)

/-- Client record built by `OAStatusParser.parse_client_line`
    (`client_type` is the dict key `"type"`). -/
structure OAClient where
  client_id : Int
  score : Int
  ping : Int
  name : String
  lastmsg : Int
  ip : String
  qport : Int
  rate : Int
  client_type : String
deriving DecidableEq, Repr

/-- `OAStatusParser.parse_client_line`. A `ValueError`/`IndexError` in
    the field block, or any other exception, yields `None`. -/
def oaParseClientLine (line : String) : Option OAClient := do
  let parts := pySplitWs line
  if parts.length < 6 then none
  else
    let cid ← pyInt (parts.getD 0 "")
    let score ← pyInt (parts.getD 1 "")
    let ping ← pyInt (parts.getD 2 "")
    let name := parts.getD 3 ""
    let lastmsg ← pyInt (parts.getD 4 "")
    let address := parts.getD 5 ""
    let qport ←
      if parts.length > 6 && (parts.getD 6 "") ≠ "0" then pyInt (parts.getD 6 "")
      else some 0
    let rate ← if parts.length > 7 then pyInt (parts.getD 7 "") else some 0
    if address = "bot" then
      some
        { client_id := cid, score := score, ping := ping, name := name
          lastmsg := lastmsg, ip := "bot", qport := qport, rate := rate
          client_type := "BOT" }
    else
      let ip :=
        if pyContains address ":" then ((pySplitChar address ':').headD "") else address
      if oaIsValidIp ip then
        some
          { client_id := cid, score := score, ping := ping, name := name
            lastmsg := lastmsg, ip := ip, qport := qport, rate := rate
            client_type := "HUMAN" }
      else none

/-- `StatusParseContext` of the base `StatusParser` (`parsing` is
    `state == PARSING`). -/
structure StatusParseCtx where
  parsing : Bool
  lines : List String
  seen_separator : Bool
deriving DecidableEq, Repr

/-- Mutable state of `OAMessageProcessor`. -/
structure OAProcState where
  status : StatusParseCtx
  status_client_count : Nat
  recent_fraglimit_hit : Bool
  recent_game_initialization : Bool
deriving DecidableEq, Repr

/-- `OAMessageProcessor.__init__`. -/
def oaInit : OAProcState :=
  { status := { parsing := false, lines := [], seen_separator := false }
    status_client_count := 0
    recent_fraglimit_hit := false
    recent_game_initialization := false }

/-- The `data` dict of each `ParsedMessage` built by
    `OAMessageProcessor`. -/
inductive OAData
  | noData
  | connectData (client_id : Nat) (challenge_ping : Nat) (needs_status_parse : Bool)
  | disconnectData (client_id : Nat)
  | gameInitData (awaiting_type_determination : Bool)
  | matchEndData (event : String) (reason : String)
  | warmupData (event : String) (warmup_info : String) (is_active : Bool)
      (initialization_type : String) (follows_game_initialization : Bool)
  | shutdownData (event : String) (shutdown_info : String) (is_match_end : Bool)
  | clientLineData (client_data : OAClient) (line_number : Nat)
  | statusCompleteData (client_data : List OAClient)
deriving DecidableEq, Repr

/-- A `ParsedMessage` as built by `OAMessageProcessor`. -/
structure OAMsg where
  message_type : MessageType
  raw_message : String
  data : OAData
deriving DecidableEq, Repr

/-- Dedup-by-id insertion used by `_extract_client_data_from_status`. -/
def oaDedupInsert (acc : List OAClient) (c : OAClient) : List OAClient :=
  if acc.any (fun x => x.client_id == c.client_id) then acc else acc ++ [c]

/-- `OAMessageProcessor._extract_client_data_from_status`: skip the
    first three collected lines (`if i <= 3: continue`), parse the rest,
    de-duplicate by client id. -/
def oaExtractClients (lines : List String) : List OAClient :=
  (lines.drop 3).foldl
    (fun acc l =>
      match oaParseClientLine l with
      | some c => oaDedupInsert acc c
      | none => acc)
    []

/-- `OAMessageProcessor._complete_status_parsing`. -/
def oaCompleteStatusParsing (st : OAProcState) : OAProcState × OAMsg :=
  let cd := oaExtractClients st.status.lines
  ({ st with status := { parsing := false, lines := [], seen_separator := false } },
   ⟨MessageType.STATUS_UPDATE, "STATUS_COMPLETE", OAData.statusCompleteData cd⟩)

/-- `OAMessageProcessor._complete_status_parsing_and_reprocess`. -/
def oaCompleteAndReprocess (st : OAProcState) (raw : String) : OAProcState × OAMsg :=
  let cd := oaExtractClients st.status.lines
  let st2 :=
    { st with status := { parsing := false, lines := [], seen_separator := false } }
  if cd.isEmpty then (st2, ⟨MessageType.UNKNOWN, raw, OAData.noData⟩)
  else (st2, ⟨MessageType.STATUS_UPDATE, "STATUS_COMPLETE", OAData.statusCompleteData cd⟩)

/-- `OAMessageProcessor._handle_status_line` (the line is appended
    first; `line_count` is read after the append). -/
def oaHandleStatusLine (st : OAProcState) (raw : String) : OAProcState × OAMsg :=
  let ctx1 : StatusParseCtx := { st.status with lines := st.status.lines ++ [raw] }
  let st1 : OAProcState := { st with status := ctx1 }
  let line_count := ctx1.lines.length
  if oaIsSeparator raw then
    ({ st1 with status := { ctx1 with seen_separator := true } },
     ⟨MessageType.STATUS_UPDATE, raw, OAData.noData⟩)
  else if pyStartsWith raw "map:" then (st1, ⟨MessageType.STATUS_UPDATE, raw, OAData.noData⟩)
  else if oaIsStatusHeader raw then (st1, ⟨MessageType.STATUS_UPDATE, raw, OAData.noData⟩)
  else if ctx1.seen_separator then
    if oaClientLineShape raw then
      match oaParseClientLine raw with
      | some c =>
          ({ st1 with status_client_count := st1.status_client_count + 1 },
           ⟨MessageType.STATUS_UPDATE, raw, OAData.clientLineData c line_count⟩)
      | none => (st1, ⟨MessageType.STATUS_UPDATE, raw, OAData.noData⟩)
    else oaCompleteAndReprocess st1 raw
  else (st1, ⟨MessageType.STATUS_UPDATE, raw, OAData.noData⟩)

/-- `OAMessageProcessor.process_message`. -/
def oaProcessMessage (st : OAProcState) (raw0 : String) : OAProcState × OAMsg :=
  let raw := pyStrip raw0
  if raw = "" then
    if st.status.parsing then oaCompleteStatusParsing st
    else (st, ⟨MessageType.UNKNOWN, raw, OAData.noData⟩)
  else
    match matchClientConnect raw with
    | some (cid, ping) =>
        (st, ⟨MessageType.CLIENT_CONNECT, raw, OAData.connectData cid ping true⟩)
    | none =>
      match matchClientDisconnect raw with
      | some cid => (st, ⟨MessageType.CLIENT_DISCONNECT, raw, OAData.disconnectData cid⟩)
      | none =>
        if raw = "------- Game Initialization -------" then
          ({ st with recent_game_initialization := true },
           ⟨MessageType.GAME_INITIALIZATION, raw, OAData.gameInitData true⟩)
        else
          match matchGameEnd raw with
          | some reason =>
              ({ st with recent_fraglimit_hit := true },
               ⟨MessageType.GAME_END, raw, OAData.matchEndData "match_ended" reason⟩)
          | none =>
            if pyStartsWith raw "Warmup:" then
              let initType :=
                if st.recent_game_initialization then "warmup_initialization"
                else "warmup_only"
              ({ st with recent_fraglimit_hit := false,
                         recent_game_initialization := false },
               ⟨MessageType.WARMUP_START, raw,
                OAData.warmupData "warmup_started" (warmupInfo raw) true initType
                  (initType == "warmup_initialization")⟩)
            else if pyStartsWith raw "ShutdownGame:" then
              let isMatchEnd := st.recent_fraglimit_hit
              ({ st with recent_fraglimit_hit := false },
               ⟨MessageType.SERVER_SHUTDOWN, raw,
                OAData.shutdownData (if isMatchEnd then "match_end" else "warmup_end")
                  (shutdownInfo raw) isMatchEnd⟩)
            else if oaIsStatusHeader raw then
              oaHandleStatusLine
                { st with
                    status := { parsing := true, lines := [], seen_separator := false }
                    status_client_count := 0 }
                raw
            else if st.status.parsing then oaHandleStatusLine st raw
            else (st, ⟨MessageType.UNKNOWN, raw, OAData.noData⟩)

/-- Feed a list of lines through `OAMessageProcessor.process_message`,
    keeping only the final state. -/
def oaRun (st : OAProcState) : List String → OAProcState
  | [] => st
  | l :: ls => oaRun (oaProcessMessage st l).1 ls

/-- Spec-side classification: is this (stripped) line a GameEnd line? -/
def isGameEndLine (s : String) : Bool :=
  decide (s = "Exit: Fraglimit hit.") || decide (s = "Exit: Timelimit hit.")

/-- Spec-side classification: warmup-start line. -/
def isWarmupLine (s : String) : Bool := pyStartsWith s "Warmup:"

/-- Spec-side classification: shutdown line. -/
def isShutdownLine (s : String) : Bool := pyStartsWith s "ShutdownGame:"

/-- The claim's flag condition: a GameEnd line has been processed since
    the last warmup-start or shutdown line (lines are stripped the way
    `process_message` strips them). -/
def gameEndSinceLastClear (lines : List String) : Bool :=
  ((lines.map pyStrip).reverse.takeWhile
      (fun l => !isWarmupLine l && !isShutdownLine l)).any isGameEndLine

/-! # Theorems -/

/-! ### Helper lemmas on the Python string primitives -/

lemma dropWhile_no (p : Char → Bool) (cs : List Char)
    (h : ∀ c ∈ cs, p c = false) : cs.dropWhile p = cs := by
  cases cs with
  | nil => rfl
  | cons c t =>
      have hc : p c = false := h c (by simp)
      simp [List.dropWhile, hc]

lemma pyStripChars_id (cs : List Char) (h : ∀ c ∈ cs, pyIsSpace c = false) :
    pyStripChars cs = cs := by
  unfold pyStripChars
  rw [dropWhile_no _ cs h, dropWhile_no, List.reverse_reverse]
  intro c hc
  exact h c (by simpa using hc)

lemma isDigit_not_space {c : Char} (h : c.isDigit = true) : pyIsSpace c = false := by
  by_contra hne
  have hs : pyIsSpace c = true := by revert hne; cases pyIsSpace c <;> simp
  unfold pyIsSpace at hs
  simp only [Bool.or_eq_true, beq_iff_eq] at hs
  rcases hs with ((((h1 | h2) | h3) | h4) | h5) | h6 <;> subst_vars <;>
    exact absurd h (by decide)

lemma isDigit_ne {c d : Char} (h : c.isDigit = true) (hd : d.isDigit = false) :
    (c == d) = false := by
  cases hbe : c == d
  · rfl
  · have hcd : c = d := eq_of_beq hbe
    subst hcd
    rw [h] at hd
    cases hd

lemma usDigitsAfter_digits (cs : List Char) (h : ∀ c ∈ cs, c.isDigit = true) :
    usDigitsAfter cs = some cs := by
  induction cs with
  | nil => rfl
  | cons c t ih =>
      have hc : c.isDigit = true := h c (by simp)
      have hu : (c == '_') = false := isDigit_ne hc (by decide)
      unfold usDigitsAfter
      rw [hu]
      simp only [Bool.false_eq_true, if_false, hc, if_true]
      rw [ih (fun d hd => h d (by simp [hd]))]
      rfl

lemma pyIntNat_digits (cs : List Char) (h0 : cs ≠ [])
    (h : ∀ c ∈ cs, c.isDigit = true) : pyIntNat cs = some (digitsVal cs) := by
  cases cs with
  | nil => cases h0 rfl
  | cons c t =>
      have hc : c.isDigit = true := h c (by simp)
      simp only [pyIntNat, hc, if_true]
      rw [usDigitsAfter_digits _ h]
      rfl

lemma pyIntChars_digits (cs : List Char) (h0 : cs ≠ [])
    (h : ∀ c ∈ cs, c.isDigit = true) :
    pyIntChars cs = some ((digitsVal cs : Nat) : Int) := by
  cases cs with
  | nil => cases h0 rfl
  | cons c t =>
      have hc : c.isDigit = true := h c (by simp)
      have h1 : (c == '+') = false := isDigit_ne hc (by decide)
      have h2 : (c == '-') = false := isDigit_ne hc (by decide)
      simp only [pyIntChars, h1, h2, Bool.false_eq_true, if_false]
      rw [pyIntNat_digits _ (by simp) h]
      rfl

lemma pyInt_digits (s : String) (h0 : s.data ≠ [])
    (h : ∀ c ∈ s.data, c.isDigit = true) :
    pyInt s = some ((digitsVal s.data : Nat) : Int) := by
  unfold pyInt
  rw [pyStripChars_id _ (fun c hc => isDigit_not_space (h c hc))]
  exact pyIntChars_digits _ h0 h

/-! ### Helper lemmas for splitting and joining dotted strings -/

lemma splitAux_last (sep : Char) (cs acc : List Char)
    (h : ∀ c ∈ cs, (c == sep) = false) :
    splitOnCharAux sep cs acc = [acc.reverse ++ cs] := by
  induction cs generalizing acc with
  | nil => simp [splitOnCharAux]
  | cons c t ih =>
      have hc : (c == sep) = false := h c (by simp)
      unfold splitOnCharAux
      rw [hc]
      simp only [Bool.false_eq_true, if_false]
      rw [ih (c :: acc) (fun d hd => h d (by simp [hd]))]
      simp

lemma splitAux_chunk (sep : Char) (cs rest acc : List Char)
    (h : ∀ c ∈ cs, (c == sep) = false) :
    splitOnCharAux sep (cs ++ sep :: rest) acc =
      (acc.reverse ++ cs) :: splitOnCharAux sep rest [] := by
  induction cs generalizing acc with
  | nil =>
      simp only [List.nil_append, List.append_nil]
      conv_lhs => rw [splitOnCharAux]
      simp
  | cons c t ih =>
      have hc : (c == sep) = false := h c (by simp)
      simp only [List.cons_append]
      conv_lhs => rw [splitOnCharAux]
      rw [hc]
      simp only [Bool.false_eq_true, if_false]
      rw [ih (c :: acc) (fun d hd => h d (by simp [hd]))]
      simp

lemma joinDots_cons (s : String) (t : List String) (ht : t ≠ []) :
    (joinDots (s :: t)).data = s.data ++ '.' :: (joinDots t).data := by
  cases t with
  | nil => cases ht rfl
  | cons u v =>
      show (s ++ "." ++ joinDots (u :: v)).data = _
      simp [String.data_append]

lemma pySplitChar_joinDots (segs : List String) (h0 : segs ≠ [])
    (h : ∀ s ∈ segs, ∀ c ∈ s.data, (c == '.') = false) :
    pySplitChar (joinDots segs) '.' = segs := by
  induction segs with
  | nil => cases h0 rfl
  | cons s t ih =>
      cases t with
      | nil =>
          show pySplitChar (joinDots [s]) '.' = [s]
          unfold pySplitChar joinDots
          rw [splitAux_last _ _ _ (h s (by simp))]
          simp
      | cons u v =>
          unfold pySplitChar
          rw [joinDots_cons s (u :: v) (by simp)]
          rw [splitAux_chunk '.' s.data (joinDots (u :: v)).data [] (h s (by simp))]
          simp only [List.reverse_nil, List.nil_append, List.map_cons]
          have hrec := ih (by simp) (fun x hx => h x (by simp [hx]))
          unfold pySplitChar at hrec
          rw [hrec]

/-! ### C9 lemmas -/

lemma oaCheckParts_ok (parts : List String)
    (h : ∀ p ∈ parts, ∃ n : Nat, pyInt p = some (n : Int) ∧ n ≤ 255) :
    oaCheckParts parts = true := by
  induction parts with
  | nil => rfl
  | cons p t ih =>
      obtain ⟨n, hn, hle⟩ := h p (by simp)
      simp only [oaCheckParts, hn]
      have hcond : (decide ((n : Int) < 0) || decide ((n : Int) > 255)) = false := by
        simp only [Bool.or_eq_false_iff, decide_eq_false_iff_not]
        constructor <;> omega
      simp only [hcond, Bool.false_eq_true, if_false]
      exact ih (fun q hq => h q (by simp [hq]))

lemma ampCheckParts_ok (parts : List String)
    (h : ∀ p ∈ parts, ∃ n : Nat, pyInt p = some (n : Int) ∧ n ≤ 255) :
    ampCheckParts parts = true := by
  induction parts with
  | nil => rfl
  | cons p t ih =>
      obtain ⟨n, hn, hle⟩ := h p (by simp)
      simp only [ampCheckParts, hn]
      have hcond : (decide ((0 : Int) ≤ (n : Int)) && decide ((n : Int) ≤ 255)) = true := by
        simp only [Bool.and_eq_true, decide_eq_true_eq]
        constructor <;> omega
      simp only [hcond, if_true]
      exact ih (fun q hq => h q (by simp [hq]))

lemma oaCheckParts_bad (parts : List String) (p : String) (hp : p ∈ parts)
    (hbad : ∃ n : Int, pyInt p = some n ∧ 255 < n) :
    oaCheckParts parts = false := by
  induction parts with
  | nil => cases hp
  | cons q t ih =>
      rcases List.mem_cons.mp hp with rfl | hmem
      · obtain ⟨n, hn, hgt⟩ := hbad
        simp only [oaCheckParts, hn]
        have hcond : (decide (n < 0) || decide (n > 255)) = true := by
          simp only [Bool.or_eq_true, decide_eq_true_eq]
          right; omega
        simp only [hcond, if_true]
      · cases hq : pyInt q with
        | none => simp [oaCheckParts, hq]
        | some m =>
            simp only [oaCheckParts, hq]
            by_cases hm : (decide (m < 0) || decide (m > 255)) = true
            · simp [hm]
            · simp only [Bool.not_eq_true] at hm
              simp [hm, ih hmem]

lemma ampCheckParts_bad (parts : List String) (p : String) (hp : p ∈ parts)
    (hbad : ∃ n : Int, pyInt p = some n ∧ 255 < n) :
    ampCheckParts parts = false := by
  induction parts with
  | nil => cases hp
  | cons q t ih =>
      rcases List.mem_cons.mp hp with rfl | hmem
      · obtain ⟨n, hn, hgt⟩ := hbad
        simp only [ampCheckParts, hn]
        have hcond : (decide ((0 : Int) ≤ n) && decide (n ≤ 255)) = false := by
          simp only [Bool.and_eq_false_iff, decide_eq_false_iff_not]
          right; omega
        simp only [hcond, Bool.false_eq_true, if_false]
      · cases hq : pyInt q with
        | none => simp [ampCheckParts, hq]
        | some m =>
            simp only [ampCheckParts, hq]
            by_cases hm : (decide ((0 : Int) ≤ m) && decide (m ≤ 255)) = true
            · simp [hm, ih hmem]
            · simp only [Bool.not_eq_true] at hm
              simp [hm]

/-- C9: for every string of four dot-separated decimal segments each
    representing an integer in [0,255], both transports' IP validators
    return true; for every string with a different number of
    dot-separated segments, or with a segment whose integer value
    exceeds 255, both return false. -/
theorem ip_validation_spec :
    (∀ segs : List String, segs.length = 4 →
        (∀ p ∈ segs, p.data ≠ [] ∧ (∀ c ∈ p.data, c.isDigit = true) ∧
          digitsVal p.data ≤ 255) →
        oaIsValidIp (joinDots segs) = true ∧ ampIsValidIp (joinDots segs) = true)
    ∧ (∀ ip : String, (pySplitChar ip '.').length ≠ 4 →
        oaIsValidIp ip = false ∧ ampIsValidIp ip = false)
    ∧ (∀ ip : String,
        (∃ p ∈ pySplitChar ip '.', ∃ n : Int, pyInt p = some n ∧ 255 < n) →
        oaIsValidIp ip = false ∧ ampIsValidIp ip = false) := by
  refine ⟨?_, ?_, ?_⟩
  · intro segs hlen h
    have hnodot : ∀ s ∈ segs, ∀ c ∈ s.data, (c == '.') = false := by
      intro s hs c hc
      exact isDigit_ne ((h s hs).2.1 c hc) (by decide)
    have hne : segs ≠ [] := by
      intro e; subst e; simp at hlen
    have hsplit := pySplitChar_joinDots segs hne hnodot
    have hoct : ∀ p ∈ segs, ∃ n : Nat, pyInt p = some (n : Int) ∧ n ≤ 255 := by
      intro p hp
      obtain ⟨hnz, hdig, hle⟩ := h p hp
      exact ⟨digitsVal p.data, pyInt_digits p hnz hdig, hle⟩
    obtain ⟨s, t, rfl⟩ : ∃ s t, segs = s :: t := by
      cases segs with
      | nil => simp at hlen
      | cons a b => exact ⟨a, b, rfl⟩
    have ht : t ≠ [] := by
      intro e; subst e; simp at hlen
    have hdata : (joinDots (s :: t)).data = s.data ++ '.' :: (joinDots t).data :=
      joinDots_cons s t ht
    have hempty : (joinDots (s :: t)).data.isEmpty = false := by
      rw [hdata]; cases s.data <;> simp [List.isEmpty]
    constructor
    · simp only [oaIsValidIp, hempty, Bool.false_eq_true, if_false, hsplit, hlen]
      simp [oaCheckParts_ok _ hoct]
    · simp only [ampIsValidIp, hsplit, hlen]
      simp [ampCheckParts_ok _ hoct]
  · intro ip hlen
    constructor
    · unfold oaIsValidIp
      by_cases he : ip.data.isEmpty
      · simp [he]
      · simp [he, hlen]
    · unfold ampIsValidIp
      simp [hlen]
  · intro ip hbad
    obtain ⟨p, hp, n, hn, hgt⟩ := hbad
    have hoa := oaCheckParts_bad _ p hp ⟨n, hn, hgt⟩
    have hamp := ampCheckParts_bad _ p hp ⟨n, hn, hgt⟩
    constructor
    · unfold oaIsValidIp
      by_cases he : ip.data.isEmpty
      · simp [he]
      · by_cases hl : (pySplitChar ip '.').length ≠ 4
        · simp [he, hl]
        · simp [he, hl, hoa]
    · unfold ampIsValidIp
      by_cases hl : (pySplitChar ip '.').length ≠ 4
      · simp [hl]
      · simp [hl, hamp]

/-- Witness for C9 at concrete inputs. -/
theorem ip_validation_spec_witness :
    (oaIsValidIp (joinDots ["192", "168", "1", "100"]) = true
      ∧ ampIsValidIp (joinDots ["192", "168", "1", "100"]) = true)
    ∧ (oaIsValidIp "1.2.3" = false ∧ ampIsValidIp "1.2.3" = false)
    ∧ (oaIsValidIp "300.1.2.3" = false ∧ ampIsValidIp "300.1.2.3" = false) :=
  ⟨ip_validation_spec.1 ["192", "168", "1", "100"] (by decide) (by decide),
   ip_validation_spec.2.1 "1.2.3" (by decide),
   ip_validation_spec.2.2 "300.1.2.3"
     ⟨"300", by decide, 300, by decide, by decide⟩⟩

/-! ### C2: match-shutdown handling in the round state machine -/

/-- C2: in RUNNING, a match-shutdown event increments `round_count` and
    returns `experiment_finished` iff the incremented count reaches
    `max_rounds`, else `round_completed` with a `rotate_latency` action;
    exactly one of the two flags is set. In any other state both flags
    are false and the count is unchanged. -/
theorem gsm_match_shutdown_spec (m : GameStateManager) :
    (m.current_state = GameState.RUNNING →
      (handle_match_shutdown_detected m).1.round_count = m.round_count + 1
      ∧ ((handle_match_shutdown_detected m).2.experiment_finished = true ↔
          m.max_rounds ≤ m.round_count + 1)
      ∧ ((handle_match_shutdown_detected m).2.round_completed = true ↔
          ¬ m.max_rounds ≤ m.round_count + 1)
      ∧ ((handle_match_shutdown_detected m).2.round_completed = true →
          (handle_match_shutdown_detected m).2.actions = ["rotate_latency"])
      ∧ (handle_match_shutdown_detected m).2.experiment_finished
          ≠ (handle_match_shutdown_detected m).2.round_completed)
    ∧ (m.current_state ≠ GameState.RUNNING →
      (handle_match_shutdown_detected m).2.experiment_finished = false
      ∧ (handle_match_shutdown_detected m).2.round_completed = false
      ∧ (handle_match_shutdown_detected m).1.round_count = m.round_count) := by
  constructor
  · intro hr
    unfold handle_match_shutdown_detected
    rw [if_pos hr]
    by_cases hge : m.round_count + 1 ≥ m.max_rounds
    · rw [if_pos hge]
      simp [hge]
    · rw [if_neg hge]
      simp [hge]
  · intro hr
    unfold handle_match_shutdown_detected
    rw [if_neg hr]
    simp

/-- Witness for C2: a finishing round, a completed round, and a
    shutdown received outside RUNNING. -/
theorem gsm_match_shutdown_spec_witness :
    ((handle_match_shutdown_detected ⟨GameState.RUNNING, 4, 0, 5⟩).2.experiment_finished
        = true)
    ∧ ((handle_match_shutdown_detected ⟨GameState.RUNNING, 1, 0, 5⟩).2.round_completed
        = true)
    ∧ ((handle_match_shutdown_detected ⟨GameState.WAITING, 1, 0, 5⟩).2.round_completed
        = false) :=
  ⟨((gsm_match_shutdown_spec ⟨GameState.RUNNING, 4, 0, 5⟩).1 rfl).2.1.mpr (by decide),
   ((gsm_match_shutdown_spec ⟨GameState.RUNNING, 1, 0, 5⟩).1 rfl).2.2.1.mpr (by decide),
   ((gsm_match_shutdown_spec ⟨GameState.WAITING, 1, 0, 5⟩).2 (by decide)).2.1⟩

/-! ### C6: round counter monotonicity -/

set_option linter.unnecessarySeqFocus false in
lemma gsmStep_round_le (m : GameStateManager) (op : GSMOp) :
    m.round_count ≤ (gsmStep m op).round_count := by
  obtain ⟨cs, rc, wrc, mr⟩ := m
  cases op <;> cases cs <;>
    simp [gsmStep, handle_warmup_detected, handle_game_initialization_detected,
      handle_match_start_detected, handle_match_shutdown_detected,
      transition_to, reset_to_waiting] <;>
    split_ifs <;> simp

lemma gsmStep_round_change (m : GameStateManager) (op : GSMOp)
    (h : (gsmStep m op).round_count ≠ m.round_count) :
    m.current_state = GameState.RUNNING := by
  obtain ⟨cs, rc, wrc, mr⟩ := m
  cases op <;> cases cs <;>
    simp_all [gsmStep, handle_warmup_detected, handle_game_initialization_detected,
      handle_match_start_detected, handle_match_shutdown_detected,
      transition_to, reset_to_waiting]

lemma gsmFoldl_round_le (m : GameStateManager) (ops : List GSMOp) :
    m.round_count ≤ (ops.foldl gsmStep m).round_count := by
  induction ops generalizing m with
  | nil => exact le_refl _
  | cons op rest ih =>
      exact le_trans (gsmStep_round_le m op) (ih (gsmStep m op))

/-- C6: `round_count` starts at 1, never decreases under any operation
    (also along any sequence of operations), and changes only while the
    machine is in RUNNING. -/
theorem gsm_round_count_monotone :
    (∀ latencyCount repeats : Nat,
        (initGameStateManager latencyCount repeats).round_count = 1)
    ∧ (∀ (m : GameStateManager) (op : GSMOp),
        m.round_count ≤ (gsmStep m op).round_count
        ∧ ((gsmStep m op).round_count ≠ m.round_count →
            m.current_state = GameState.RUNNING))
    ∧ (∀ (m : GameStateManager) (ops : List GSMOp),
        m.round_count ≤ (ops.foldl gsmStep m).round_count) :=
  ⟨fun _ _ => rfl,
   fun m op => ⟨gsmStep_round_le m op, gsmStep_round_change m op⟩,
   fun m ops => gsmFoldl_round_le m ops⟩

/-- Witness for C6: the counter changes exactly in the RUNNING case. -/
theorem gsm_round_count_monotone_witness :
    (gsmStep ⟨GameState.RUNNING, 1, 0, 5⟩ GSMOp.matchShutdownDetected).round_count ≠ 1
    ∧ (⟨GameState.RUNNING, 1, 0, 5⟩ : GameStateManager).current_state
        = GameState.RUNNING :=
  ⟨by decide,
   (gsm_round_count_monotone.2.1 ⟨GameState.RUNNING, 1, 0, 5⟩
      GSMOp.matchShutdownDetected).2 (by decide)⟩

/-! ### C3: state after shutdown-strategy invocations -/

/-- C3 counterexample: with the player threshold unmet, the warmup
    shutdown strategy returns early and leaves the machine in WARMUP,
    not WAITING. -/
theorem warmup_strategy_not_waiting_cex :
    ¬ ((warmupShutdownHandle
          ⟨⟨GameState.WARMUP, 1, 0, 5⟩, true, true⟩).1.gsm.current_state
        = GameState.WAITING) := by
  decide

/-- C3 amended: the match shutdown strategy always leaves the machine in
    WAITING; the warmup shutdown strategy leaves it in WAITING when the
    player threshold is met, and leaves the round state machine
    untouched (so possibly not WAITING) when the threshold is unmet. -/
theorem shutdown_strategies_state_spec (a : AdapterState) :
    (matchShutdownHandle a).1.gsm.current_state = GameState.WAITING
    ∧ (a.insufficient_humans = false →
        (warmupShutdownHandle a).1.gsm.current_state = GameState.WAITING)
    ∧ (a.insufficient_humans = true → (warmupShutdownHandle a).1.gsm = a.gsm) := by
  refine ⟨rfl, ?_, ?_⟩
  · intro h
    simp [warmupShutdownHandle, h, reset_to_waiting, transition_to]
  · intro h
    simp [warmupShutdownHandle, h]

/-- Witness for C3 (amended) at concrete adapter states. -/
theorem shutdown_strategies_state_spec_witness :
    (matchShutdownHandle
        ⟨⟨GameState.RUNNING, 1, 0, 5⟩, false, true⟩).1.gsm.current_state
      = GameState.WAITING
    ∧ (warmupShutdownHandle
        ⟨⟨GameState.WARMUP, 1, 0, 5⟩, false, true⟩).1.gsm.current_state
      = GameState.WAITING
    ∧ (warmupShutdownHandle
        ⟨⟨GameState.RUNNING, 2, 0, 5⟩, true, true⟩).1.gsm
      = (⟨GameState.RUNNING, 2, 0, 5⟩ : GameStateManager) :=
  ⟨(shutdown_strategies_state_spec ⟨⟨GameState.RUNNING, 1, 0, 5⟩, false, true⟩).1,
   (shutdown_strategies_state_spec ⟨⟨GameState.WARMUP, 1, 0, 5⟩, false, true⟩).2.1 rfl,
   (shutdown_strategies_state_spec ⟨⟨GameState.RUNNING, 2, 0, 5⟩, true, true⟩).2.2 rfl⟩

/-! ### C8: synchronous command dispatch -/

/-- C8: `send_command_sync` delivers the command in both execution
    contexts — scheduling on the running loop without blocking when one
    exists, running the coroutine to completion on a fresh one-shot loop
    when none does — and never raises for the expected no-loop case. -/
theorem send_command_sync_spec (ctx : AsyncContext) (command : String) :
    ∃ d : CommandDelivery, send_command_sync ctx command = PyResult.ok d
      ∧ (∀ l : Nat, ctx = AsyncContext.loopRunning l →
          d = CommandDelivery.scheduledOnLoop l command)
      ∧ (ctx = AsyncContext.noLoop → d = CommandDelivery.ranToCompletion command) := by
  cases ctx with
  | loopRunning l =>
      refine ⟨CommandDelivery.scheduledOnLoop l command, rfl, ?_, ?_⟩
      · intro l2 hl
        injection hl with he
        rw [he]
      · intro hn
        exact AsyncContext.noConfusion hn
  | noLoop =>
      refine ⟨CommandDelivery.ranToCompletion command, rfl, ?_, ?_⟩
      · intro l2 hl
        exact AsyncContext.noConfusion hl
      · intro _
        rfl

/-- Witness for C8 in both contexts. -/
theorem send_command_sync_spec_witness :
    send_command_sync (AsyncContext.loopRunning 7) "status"
      = PyResult.ok (CommandDelivery.scheduledOnLoop 7 "status")
    ∧ send_command_sync AsyncContext.noLoop "status"
      = PyResult.ok (CommandDelivery.ranToCompletion "status") := by
  obtain ⟨d1, h1, hl1, _⟩ := send_command_sync_spec (AsyncContext.loopRunning 7) "status"
  obtain ⟨d2, h2, _, hn2⟩ := send_command_sync_spec AsyncContext.noLoop "status"
  rw [hl1 7 rfl] at h1
  rw [hn2 rfl] at h2
  exact ⟨h1, h2⟩

/-! ### C10: bot-name registration -/

lemma dictGet_set_self {K V : Type} [BEq K] [LawfulBEq K]
    (d : List (K × V)) (k : K) (v : V) :
    dictGet (dictSet d k v) k = some v := by
  induction d with
  | nil => simp [dictSet, dictGet]
  | cons kv rest ih =>
      obtain ⟨k0, v0⟩ := kv
      by_cases h : (k0 == k) = true
      · simp [dictSet, dictGet, h]
      · simp only [Bool.not_eq_true] at h
        simp [dictSet, dictGet, h, ih]

/-- C10: a client whose name is one of the eight `BOT_NAMES` entries is
    registered as a BOT regardless of the `is_bot` argument and of the
    supplied IP; no latency assignment, IP mapping, or OBS status entry
    is created. -/
theorem network_add_client_bot_spec (m : NetworkManagerState) (client_id : Int)
    (ip : Option String) (latency : Option Int) (name : String) (is_bot : Bool)
    (h : name ∈ BOT_NAMES) :
    dictGet (add_client m client_id ip latency (some name) is_bot).client_type_map
        client_id = some "BOT"
    ∧ (add_client m client_id ip latency (some name) is_bot).ip_latency_map
        = m.ip_latency_map
    ∧ (add_client m client_id ip latency (some name) is_bot).client_ip_map
        = m.client_ip_map
    ∧ (add_client m client_id ip latency (some name) is_bot).obs_status_map
        = m.obs_status_map := by
  have hne : name ≠ "" := by
    intro e
    subst e
    revert h
    decide
  have ht : (name != "") = true := by simpa [bne_iff_ne] using hne
  have hcont : BOT_NAMES.contains name = true := by
    fin_cases h <;> decide
  unfold add_client
  simp only [Option.getD_some, ht, hcont, Bool.and_self, if_true, Bool.true_and,
    Bool.not_true, Bool.false_and, Bool.false_eq_true, if_false]
  simp [dictGet_set_self]

/-- Witness for C10: adding "Sarge" with `is_bot = False` and an IP. -/
theorem network_add_client_bot_spec_witness :
    dictGet (add_client initNetworkManager 3 (some "10.0.0.1") (some 200)
        (some "Sarge") false).client_type_map 3 = some "BOT"
    ∧ (add_client initNetworkManager 3 (some "10.0.0.1") (some 200)
        (some "Sarge") false).ip_latency_map = [] :=
  ⟨(network_add_client_bot_spec initNetworkManager 3 (some "10.0.0.1") (some 200)
      "Sarge" false (by decide)).1,
   (network_add_client_bot_spec initNetworkManager 3 (some "10.0.0.1") (some 200)
      "Sarge" false (by decide)).2.1⟩

/-! ### C1: dedup cache behaviour -/

lemma evictWhile_of_le (maxSize : Nat) (c : SeenCache) (h : c.length ≤ maxSize) :
    evictWhile maxSize c = c := by
  cases c with
  | nil => rfl
  | cons k t =>
      unfold evictWhile
      rw [if_neg (by omega)]

lemma evictWhile_bound (maxSize : Nat) (c : SeenCache)
    (h : c.length ≤ maxSize + 1) : (evictWhile maxSize c).length ≤ maxSize := by
  induction c with
  | nil => simp [evictWhile]
  | cons k t ih =>
      unfold evictWhile
      by_cases hgt : (k :: t).length > maxSize
      · rw [if_pos hgt]
        exact ih (by simp at h ⊢; omega)
      · rw [if_neg hgt]
        omega

lemma cacheInsert_bound (c : SeenCache) (k : String) (h : c.length ≤ 1000) :
    (cacheInsert 1000 c k).length ≤ 1000 := by
  unfold cacheInsert
  exact evictWhile_bound 1000 (c ++ [k]) (by simp; omega)

lemma processEntry_fresh (e : ConsoleEntry) :
    processEntry 1000 [] e = ([msgKey e], entryLines e) := by
  unfold processEntry
  rw [if_neg (List.not_mem_nil _)]
  unfold cacheInsert
  rw [List.nil_append]
  unfold evictWhile
  rw [if_neg (by simp only [List.length_cons, List.length_nil]; omega)]

lemma processEntry_seen (e : ConsoleEntry) :
    processEntry 1000 [msgKey e] e = ([msgKey e], []) := by
  unfold processEntry
  rw [if_pos (by simp)]

/-- C1: feeding the same console entry key twice — within one poll's
    entry list or across successive polls — yields the entry's events
    exactly once; every insertion keeps the cache at ≤ 1000 keys; and
    inserting a fresh key into a full cache evicts the first-inserted
    key. -/
theorem amp_dedup_cache_spec :
    (∀ e : ConsoleEntry, (processEntries 1000 [] [e, e]).2 = entryLines e)
    ∧ (∀ (e : ConsoleEntry) (seen : SeenCache),
        (read_messages 1000 seen [PollResult.ok [e], PollResult.ok [e]]).2
          = entryLines e)
    ∧ (∀ (c : SeenCache) (k : String), c.length ≤ 1000 →
        (cacheInsert 1000 c k).length ≤ 1000)
    ∧ (∀ (c : SeenCache) (e : ConsoleEntry), c.length = 1000 → msgKey e ∉ c →
        (processEntry 1000 c e).1 = c.tail ++ [msgKey e]) := by
  refine ⟨?_, ?_, ?_, ?_⟩
  · intro e
    simp [processEntries, processEntry_fresh, processEntry_seen]
  · intro e seen
    simp [read_messages, runPolls, processEntries, processEntry_fresh,
      processEntry_seen]
  · intro c k h
    exact cacheInsert_bound c k h
  · intro c e hlen hmem
    unfold processEntry
    rw [if_neg hmem]
    unfold cacheInsert
    cases c with
    | nil => simp at hlen
    | cons k0 t =>
        have hlen2 : t.length + 1 = 1000 := by simpa using hlen
        simp only [List.cons_append]
        have hgt : (k0 :: (t ++ [msgKey e])).length > 1000 := by
          simp only [List.length_cons, List.length_append, List.length_nil]
          omega
        rw [evictWhile, if_pos hgt]
        rw [evictWhile_of_le 1000 (t ++ [msgKey e])
          (by simp only [List.length_append, List.length_cons, List.length_nil]; omega)]
        rfl

/-- Witness for C1: a duplicated entry, an insertion below the bound,
    and an eviction from a full cache. -/
theorem amp_dedup_cache_spec_witness :
    (processEntries 1000 [] [⟨"t", "hello"⟩, ⟨"t", "hello"⟩]).2
        = entryLines ⟨"t", "hello"⟩
    ∧ (cacheInsert 1000 ["a"] "b").length ≤ 1000
    ∧ (processEntry 1000 (List.replicate 1000 "x") ⟨"t", "y"⟩).1
        = (List.replicate 1000 "x").tail ++ [msgKey ⟨"t", "y"⟩] :=
  ⟨amp_dedup_cache_spec.1 ⟨"t", "hello"⟩,
   amp_dedup_cache_spec.2.2.1 ["a"] "b" (by decide),
   amp_dedup_cache_spec.2.2.2 (List.replicate 1000 "x") ⟨"t", "y"⟩
     (List.length_replicate 1000 "x")
     (by
        rw [List.mem_replicate]
        rintro ⟨-, h2⟩
        exact absurd h2 (by decide))⟩

/-! ### C7: cache clearing across connect and re-login -/

set_option maxRecDepth 4000 in
/-- C7 counterexample: after an RPC failure followed by a successful
    re-login, the key cached before the failure is still in the cache
    and suppresses the re-emitted entry — the entry's line is emitted
    once, not twice. -/
theorem amp_dedup_relogin_cex :
    (read_messages 1000 []
        [PollResult.ok [⟨"t", "x"⟩], PollResult.rpcFailure true,
         PollResult.ok [⟨"t", "x"⟩]]).2 = ["x"]
    ∧ msgKey ⟨"t", "x"⟩ ∈
        (read_messages 1000 []
          [PollResult.ok [⟨"t", "x"⟩], PollResult.rpcFailure true,
           PollResult.ok [⟨"t", "x"⟩]]).1 := by
  constructor
  · decide
  · decide

/-- C7 amended: every `read_messages` call starts from a cleared cache
    (its result does not depend on the cache contents at call time), but
    an in-loop re-login after an RPC failure does not clear the cache:
    keys cached before the failure still suppress re-emission. -/
theorem amp_dedup_clear_spec :
    (∀ (maxSize : Nat) (seen seen' : SeenCache) (polls : List PollResult),
        read_messages maxSize seen polls = read_messages maxSize seen' polls)
    ∧ (∀ e : ConsoleEntry,
        (read_messages 1000 []
            [PollResult.ok [e], PollResult.rpcFailure true, PollResult.ok [e]]).2
          = entryLines e) := by
  constructor
  · intro maxSize s1 s2 polls
    rfl
  · intro e
    simp [read_messages, runPolls, processEntries, processEntry_fresh,
      processEntry_seen]

/-! ### C4: AMP status-block round trip -/

lemma ampIsStatusHeader_ne_empty {s : String} (h : ampIsStatusHeader s = true) :
    s ≠ "" := by
  intro e
  subst e
  exact absurd h (by decide)

lemma ampIsSectionEnd_ne_empty {s : String} (h : ampIsSectionEnd s = true) :
    s ≠ "" := by
  intro e
  subst e
  exact absurd h (by decide)

lemma ampProcessMessage_empty (st : AMPProcState) (r : String)
    (hempty : pyStrip r = "") :
    ampProcessMessage st r = (st, ⟨MessageType.UNKNOWN, "", AMPData.noData⟩) := by
  unfold ampProcessMessage
  rw [hempty]
  simp

lemma ampProcessMessage_end (st : AMPProcState) (e : String)
    (hin : st.in_player_section = true)
    (he : ampIsSectionEnd (pyStrip e) = true)
    (hee : ampIsStatusHeader (pyStrip e) = false) :
    ampProcessMessage st e
      = (⟨false, []⟩, ⟨MessageType.STATUS_UPDATE, pyStrip e,
          AMPData.clientsComplete st.collected_clients⟩) := by
  have hne : (pyStrip e == "") = false := by
    rw [beq_eq_false_iff_ne]
    exact ampIsSectionEnd_ne_empty he
  simp only [ampProcessMessage, hne, Bool.false_eq_true, if_false, hee, hin, he,
    Bool.and_self, if_true]

lemma ampProcessMessage_row (st : AMPProcState) (r : String)
    (hin : st.in_player_section = true)
    (hne : (pyStrip r == "") = false)
    (hr1 : ampIsStatusHeader (pyStrip r) = false)
    (hr2 : ampIsSectionEnd (pyStrip r) = false)
    (hr3 : ampIsColumnHeader (pyStrip r) = false) :
    ampProcessMessage st r
      = match ampParseClientLine (pyStrip r) with
        | some c =>
            ({ st with collected_clients := st.collected_clients ++ [c] },
             ⟨MessageType.STATUS_UPDATE, pyStrip r, AMPData.clientData c⟩)
        | none => (st, ⟨MessageType.STATUS_UPDATE, pyStrip r, AMPData.noData⟩) := by
  simp only [ampProcessMessage, hne, Bool.false_eq_true, if_false, hr1, hr2, hr3,
    hin, Bool.and_false, Bool.true_and, if_true]

lemma ampRun_section (e : String)
    (he : ampIsSectionEnd (pyStrip e) = true)
    (hee : ampIsStatusHeader (pyStrip e) = false) :
    ∀ rows : List String,
      (∀ r ∈ rows, ampIsStatusHeader (pyStrip r) = false
        ∧ ampIsSectionEnd (pyStrip r) = false
        ∧ ampIsColumnHeader (pyStrip r) = false) →
      ∀ acc : List AMPClient,
      ∃ msgs : List AMPMsg,
        ampRun ⟨true, acc⟩ (rows ++ [e])
          = (⟨false, []⟩,
             msgs ++ [⟨MessageType.STATUS_UPDATE, pyStrip e,
               AMPData.clientsComplete
                 (acc ++ rows.filterMap (fun r => ampParseClientLine (pyStrip r)))⟩])
        ∧ ∀ m ∈ msgs, ∀ cs : List AMPClient, m.data ≠ AMPData.clientsComplete cs := by
  intro rows
  induction rows with
  | nil =>
      intro _ acc
      refine ⟨[], ?_, by simp⟩
      rw [List.nil_append]
      simp only [ampRun, ampProcessMessage_end ⟨true, acc⟩ e rfl he hee]
      simp
  | cons r rows' ih =>
      intro hrows acc
      obtain ⟨hr1, hr2, hr3⟩ := hrows r (by simp)
      have hrows' := fun x hx => hrows x (List.mem_cons_of_mem _ hx)
      by_cases hempty : pyStrip r = ""
      · have hpn : ampParseClientLine (pyStrip r) = none := by
          rw [hempty]
          decide
        obtain ⟨msgs, hrun, hnc⟩ := ih hrows' acc
        refine ⟨⟨MessageType.UNKNOWN, "", AMPData.noData⟩ :: msgs, ?_, ?_⟩
        · simp only [List.cons_append, ampRun,
            ampProcessMessage_empty ⟨true, acc⟩ r hempty, List.append_eq]
          rw [hrun]
          simp [hpn]
        · intro m hm cs
          rcases List.mem_cons.mp hm with rfl | hmem
          · simp
          · exact hnc m hmem cs
      · have hne : (pyStrip r == "") = false := by
          rw [beq_eq_false_iff_ne]
          exact hempty
        cases hp : ampParseClientLine (pyStrip r) with
        | some c =>
            obtain ⟨msgs, hrun, hnc⟩ := ih hrows' (acc ++ [c])
            refine ⟨⟨MessageType.STATUS_UPDATE, pyStrip r, AMPData.clientData c⟩ :: msgs,
              ?_, ?_⟩
            · simp only [List.cons_append, ampRun,
                ampProcessMessage_row ⟨true, acc⟩ r rfl hne hr1 hr2 hr3, hp,
                List.append_eq]
              rw [hrun]
              simp [hp, List.append_assoc]
            · intro m hm cs
              rcases List.mem_cons.mp hm with rfl | hmem
              · simp
              · exact hnc m hmem cs
        | none =>
            obtain ⟨msgs, hrun, hnc⟩ := ih hrows' acc
            refine ⟨⟨MessageType.STATUS_UPDATE, pyStrip r, AMPData.noData⟩ :: msgs,
              ?_, ?_⟩
            · simp only [List.cons_append, ampRun,
                ampProcessMessage_row ⟨true, acc⟩ r rfl hne hr1 hr2 hr3, hp,
                List.append_eq]
              rw [hrun]
              simp [hp]
            · intro m hm cs
              rcases List.mem_cons.mp hm with rfl | hmem
              · simp
              · exact hnc m hmem cs

set_option maxRecDepth 8000 in
/-- C4 counterexample: a block whose two valid rows share client id 3
    yields a single status-complete message whose `clients` id list is
    `[3, 3]` — the list is not de-duplicated by id, so its length is 2
    while the number of distinct ids is 1. -/
theorem amp_status_block_duplicate_cex :
    ((ampRun ampInit
        ["---------players--------",
         "  3    00:05   12    0   spawning  80000 127.0.0.1:52271 \x27bob\x27",
         "  3    00:05   12    0   spawning  80000 127.0.0.1:52271 \x27bob\x27",
         "#end"]).2.filterMap
      (fun m =>
        match m.data with
        | AMPData.clientsComplete cs => some (cs.map (fun c => c.client_id))
        | _ => none))
      = [[3, 3]] := by
  decide

/-- C4 amended: for a block of a header line, N rows, and a
    block-terminating line, the processor emits exactly one
    status-complete message, carrying under `clients` the list of
    successfully parsed rows in input order — names and addresses as
    parsed from each row, without de-duplication by client id, so its
    length is the number of successfully parsed rows (not the number of
    distinct ids). -/
theorem amp_status_block_spec (hdr e : String) (rows : List String)
    (st0 : AMPProcState)
    (hh : ampIsStatusHeader (pyStrip hdr) = true)
    (hrows : ∀ r ∈ rows, ampIsStatusHeader (pyStrip r) = false
        ∧ ampIsSectionEnd (pyStrip r) = false
        ∧ ampIsColumnHeader (pyStrip r) = false)
    (he : ampIsSectionEnd (pyStrip e) = true)
    (hee : ampIsStatusHeader (pyStrip e) = false) :
    ∃ msgs : List AMPMsg,
      ampRun st0 (hdr :: rows ++ [e])
        = (⟨false, []⟩,
           ⟨MessageType.STATUS_UPDATE, pyStrip hdr, AMPData.noData⟩ ::
             (msgs ++ [⟨MessageType.STATUS_UPDATE, pyStrip e,
               AMPData.clientsComplete
                 (rows.filterMap (fun r => ampParseClientLine (pyStrip r)))⟩]))
      ∧ ∀ m ∈ msgs, ∀ cs : List AMPClient, m.data ≠ AMPData.clientsComplete cs := by
  have hne : (pyStrip hdr == "") = false := by
    rw [beq_eq_false_iff_ne]
    exact ampIsStatusHeader_ne_empty hh
  have hproc : ampProcessMessage st0 hdr
      = (⟨true, []⟩, ⟨MessageType.STATUS_UPDATE, pyStrip hdr, AMPData.noData⟩) := by
    simp only [ampProcessMessage, hne, Bool.false_eq_true, if_false, hh, if_true]
  obtain ⟨msgs, hrun, hnc⟩ := ampRun_section e he hee rows hrows []
  refine ⟨msgs, ?_, hnc⟩
  simp only [List.cons_append, ampRun, hproc, List.append_eq]
  rw [hrun]
  simp

/-- Witness for C4 (amended) on a concrete one-row block. -/
theorem amp_status_block_spec_witness :
    (ampRun ampInit
        ["---------players--------",
         "  3    00:05   12    0   spawning  80000 127.0.0.1:52271 \x27bob\x27",
         "#end"]).2.getLast?
      = some ⟨MessageType.STATUS_UPDATE, pyStrip "#end",
          AMPData.clientsComplete
            (["  3    00:05   12    0   spawning  80000 127.0.0.1:52271 \x27bob\x27"].filterMap
              (fun r => ampParseClientLine (pyStrip r)))⟩ := by
  obtain ⟨msgs, heq, -⟩ := amp_status_block_spec "---------players--------" "#end"
    ["  3    00:05   12    0   spawning  80000 127.0.0.1:52271 \x27bob\x27"] ampInit
    (by decide) (by decide) (by decide) (by decide)
  have h2 := congrArg Prod.snd heq
  simp only at h2
  have h3 : (ampRun ampInit
      ["---------players--------",
       "  3    00:05   12    0   spawning  80000 127.0.0.1:52271 \x27bob\x27",
       "#end"]).2
      = ⟨MessageType.STATUS_UPDATE, pyStrip "---------players--------",
          AMPData.noData⟩ ::
        (msgs ++ [⟨MessageType.STATUS_UPDATE, pyStrip "#end",
          AMPData.clientsComplete
            (["  3    00:05   12    0   spawning  80000 127.0.0.1:52271 \x27bob\x27"].filterMap
              (fun r => ampParseClientLine (pyStrip r)))⟩]) := h2
  rw [h3, ← List.cons_append, List.getLast?_concat]

/-! ### C5: shutdown classification in the OpenArena processor -/

lemma listPre_head_false (p c : Char) (ps cs : List Char) (h : (p == c) = false) :
    listPre (p :: ps) (c :: cs) = false := by
  simp [listPre, h]

lemma listPre_cons_ex {p : Char} {ps cs : List Char}
    (h : listPre (p :: ps) cs = true) : ∃ t, cs = p :: t := by
  cases cs with
  | nil => simp [listPre] at h
  | cons c t =>
      have hb : (p == c) = true := by
        by_contra hbc
        rw [Bool.not_eq_true] at hbc
        simp [listPre, hbc] at h
      exact ⟨t, by rw [eq_of_beq hb]⟩

lemma dropLit_head_false (p c : Char) (ps cs : List Char) (h : (c == p) = false) :
    dropLit (p :: ps) (c :: cs) = none := by
  simp [dropLit, h]

lemma dropLit_some : ∀ (ps cs r : List Char), dropLit ps cs = some r → cs = ps ++ r := by
  intro ps
  induction ps with
  | nil =>
      intro cs r h
      simp only [dropLit, Option.some.injEq] at h
      simp [h]
  | cons p ps' ih =>
      intro cs r h
      cases cs with
      | nil => simp [dropLit] at h
      | cons c cs' =>
          by_cases hc : (c == p) = true
          · have h2 : dropLit ps' cs' = some r := by
              simpa [dropLit, hc] using h
            have hcp : c = p := eq_of_beq hc
            subst hcp
            simp [ih cs' r h2]
          · rw [Bool.not_eq_true] at hc
            rw [dropLit_head_false p c ps' cs' hc] at h
            cases h

lemma str_ne_of_head (raw s : String) (c e : Char) (t u : List Char)
    (hr : raw.data = c :: t) (hs : s.data = e :: u) (hne : (c == e) = false) :
    raw ≠ s := by
  intro hEq
  rw [hEq, hs] at hr
  injection hr with h1 _
  rw [h1] at hne
  exact absurd hne (by simp)

lemma isGameEndLine_false_of_head (raw : String) (c : Char) (t : List Char)
    (h : raw.data = c :: t) (hc : (c == 'E') = false) :
    isGameEndLine raw = false := by
  have h1 : raw ≠ "Exit: Fraglimit hit." :=
    str_ne_of_head raw _ c 'E' t (("xit: Fraglimit hit.").data) h rfl hc
  have h2 : raw ≠ "Exit: Timelimit hit." :=
    str_ne_of_head raw _ c 'E' t (("xit: Timelimit hit.").data) h rfl hc
  simp [isGameEndLine, h1, h2]

lemma isWarmupLine_false_of_head (raw : String) (c : Char) (t : List Char)
    (h : raw.data = c :: t) (hc : (('W' : Char) == c) = false) :
    isWarmupLine raw = false := by
  unfold isWarmupLine pyStartsWith
  rw [h]
  exact listPre_head_false 'W' c (("armup:").data) t hc

lemma isShutdownLine_false_of_head (raw : String) (c : Char) (t : List Char)
    (h : raw.data = c :: t) (hc : (('S' : Char) == c) = false) :
    isShutdownLine raw = false := by
  unfold isShutdownLine pyStartsWith
  rw [h]
  exact listPre_head_false 'S' c (("hutdownGame:").data) t hc

lemma matchClientConnect_head {raw : String} {p : Nat × Nat}
    (h : matchClientConnect raw = some p) : ∃ t, raw.data = 'C' :: t := by
  unfold matchClientConnect at h
  cases hd : dropLit (("Client ").data) raw.data with
  | none => rw [hd] at h; cases h
  | some r1 =>
      have h2 := dropLit_some _ _ _ hd
      exact ⟨("lient ").data ++ r1, by rw [h2]; rfl⟩

lemma matchClientDisconnect_head {raw : String} {p : Nat}
    (h : matchClientDisconnect raw = some p) : ∃ t, raw.data = 'C' :: t := by
  unfold matchClientDisconnect at h
  cases hd : dropLit (("ClientDisconnect: ").data) raw.data with
  | none => rw [hd] at h; cases h
  | some r1 =>
      have h2 := dropLit_some _ _ _ hd
      exact ⟨("lientDisconnect: ").data ++ r1, by rw [h2]; rfl⟩

lemma matchClientConnect_none_of_head {s : String} {c : Char} {t : List Char}
    (hd : s.data = c :: t) (hc : (c == 'C') = false) :
    matchClientConnect s = none := by
  unfold matchClientConnect
  rw [hd, dropLit_head_false 'C' c (("lient ").data) t hc]

lemma matchClientDisconnect_none_of_head {s : String} {c : Char} {t : List Char}
    (hd : s.data = c :: t) (hc : (c == 'C') = false) :
    matchClientDisconnect s = none := by
  unfold matchClientDisconnect
  rw [hd, dropLit_head_false 'C' c (("lientDisconnect: ").data) t hc]

lemma matchGameEnd_none_of_head {s : String} {c : Char} {t : List Char}
    (hd : s.data = c :: t) (hc : (c == 'E') = false) :
    matchGameEnd s = none := by
  have h1 : s ≠ "Exit: Fraglimit hit." :=
    str_ne_of_head s _ c 'E' t (("xit: Fraglimit hit.").data) hd rfl hc
  have h2 : s ≠ "Exit: Timelimit hit." :=
    str_ne_of_head s _ c 'E' t (("xit: Timelimit hit.").data) hd rfl hc
  simp [matchGameEnd, h1, h2]

lemma matchGameEnd_some_iff (raw : String) :
    (matchGameEnd raw).isSome = isGameEndLine raw := by
  unfold matchGameEnd isGameEndLine
  split_ifs with h1 h2
  · simp [h1]
  · simp [h1, h2]
  · simp [h1, h2]

lemma clear_not_gameEnd {s : String}
    (h : (isWarmupLine s || isShutdownLine s) = true) :
    isGameEndLine s = false := by
  have h2 : isWarmupLine s = true ∨ isShutdownLine s = true := by
    simpa using h
  rcases h2 with hw | hs
  · obtain ⟨t, ht⟩ :=
      @listPre_cons_ex 'W' _ _ (by simpa [isWarmupLine, pyStartsWith] using hw)
    exact isGameEndLine_false_of_head s 'W' t ht (by decide)
  · obtain ⟨t, ht⟩ :=
      @listPre_cons_ex 'S' _ _ (by simpa [isShutdownLine, pyStartsWith] using hs)
    exact isGameEndLine_false_of_head s 'S' t ht (by decide)

lemma oaHandleStatusLine_flag (st : OAProcState) (raw : String) :
    (oaHandleStatusLine st raw).1.recent_fraglimit_hit = st.recent_fraglimit_hit := by
  simp only [oaHandleStatusLine, oaCompleteAndReprocess]
  split_ifs <;> try rfl
  all_goals cases oaParseClientLine raw <;> rfl

lemma oaStep_flag (st : OAProcState) (l : String) :
    (oaProcessMessage st l).1.recent_fraglimit_hit
      = (if isGameEndLine (pyStrip l) then true
         else if isWarmupLine (pyStrip l) || isShutdownLine (pyStrip l) then false
         else st.recent_fraglimit_hit) := by
  simp only [oaProcessMessage]
  by_cases h0 : pyStrip l = ""
  · rw [if_pos h0, h0]
    simp only [show isGameEndLine "" = false from rfl,
      show isWarmupLine "" = false from rfl, show isShutdownLine "" = false from rfl,
      Bool.or_self, Bool.false_eq_true, if_false]
    by_cases hp : st.status.parsing = true
    · rw [if_pos hp]
      rfl
    · rw [if_neg hp]
  · rw [if_neg h0]
    cases hcc : matchClientConnect (pyStrip l) with
    | some p =>
        obtain ⟨t, hhead⟩ := matchClientConnect_head hcc
        have hge : isGameEndLine (pyStrip l) = false :=
          isGameEndLine_false_of_head _ 'C' t hhead (by decide)
        have hw : isWarmupLine (pyStrip l) = false :=
          isWarmupLine_false_of_head _ 'C' t hhead (by decide)
        have hsd : isShutdownLine (pyStrip l) = false :=
          isShutdownLine_false_of_head _ 'C' t hhead (by decide)
        simp [hcc, hge, hw, hsd]
    | none =>
      cases hcd : matchClientDisconnect (pyStrip l) with
      | some cid =>
          obtain ⟨t, hhead⟩ := matchClientDisconnect_head hcd
          have hge : isGameEndLine (pyStrip l) = false :=
            isGameEndLine_false_of_head _ 'C' t hhead (by decide)
          have hw : isWarmupLine (pyStrip l) = false :=
            isWarmupLine_false_of_head _ 'C' t hhead (by decide)
          have hsd : isShutdownLine (pyStrip l) = false :=
            isShutdownLine_false_of_head _ 'C' t hhead (by decide)
          simp [hcc, hcd, hge, hw, hsd]
      | none =>
        simp only [hcc, hcd]
        by_cases hinit : pyStrip l = "------- Game Initialization -------"
        · rw [if_pos hinit, hinit]
          simp only [show isGameEndLine "------- Game Initialization -------" = false
              from rfl,
            show isWarmupLine "------- Game Initialization -------" = false from rfl,
            show isShutdownLine "------- Game Initialization -------" = false from rfl,
            Bool.or_self, Bool.false_eq_true, if_false]
        · rw [if_neg hinit]
          cases hge : matchGameEnd (pyStrip l) with
          | some reason =>
              have hgt : isGameEndLine (pyStrip l) = true := by
                have h4 := matchGameEnd_some_iff (pyStrip l)
                rw [hge] at h4
                simpa using h4.symm
              simp [hgt]
          | none =>
              have hgef : isGameEndLine (pyStrip l) = false := by
                have h4 := matchGameEnd_some_iff (pyStrip l)
                rw [hge] at h4
                simpa using h4.symm
              simp only [hgef, Bool.false_eq_true, if_false]
              by_cases hwu : pyStartsWith (pyStrip l) ("Warmup:") = true
              · rw [if_pos hwu]
                have hw2 : isWarmupLine (pyStrip l) = true := hwu
                simp [hw2]
              · rw [if_neg hwu]
                have hw2 : isWarmupLine (pyStrip l) = false :=
                  Bool.not_eq_true _ ▸ eq_false_of_ne_true hwu
                by_cases hsd : pyStartsWith (pyStrip l) ("ShutdownGame:") = true
                · rw [if_pos hsd]
                  have hs2 : isShutdownLine (pyStrip l) = true := hsd
                  simp [hw2, hs2]
                · rw [if_neg hsd]
                  have hs2 : isShutdownLine (pyStrip l) = false :=
                    Bool.not_eq_true _ ▸ eq_false_of_ne_true hsd
                  simp only [hw2, hs2, Bool.or_self, Bool.false_eq_true, if_false]
                  by_cases hh : oaIsStatusHeader (pyStrip l) = true
                  · rw [if_pos hh, oaHandleStatusLine_flag]
                  · rw [if_neg hh]
                    by_cases hp : st.status.parsing = true
                    · rw [if_pos hp, oaHandleStatusLine_flag]
                    · rw [if_neg hp]

lemma oaRun_snoc (st : OAProcState) (ls : List String) (l : String) :
    oaRun st (ls ++ [l]) = (oaProcessMessage (oaRun st ls) l).1 := by
  induction ls generalizing st with
  | nil => rfl
  | cons x xs ih => simp [oaRun, ih]

lemma takeWhile_cons_true {α : Type} (p : α → Bool) (a : α) (l : List α)
    (h : p a = true) : List.takeWhile p (a :: l) = a :: List.takeWhile p l := by
  simp [List.takeWhile, h]

lemma takeWhile_cons_false {α : Type} (p : α → Bool) (a : α) (l : List α)
    (h : p a = false) : List.takeWhile p (a :: l) = [] := by
  simp [List.takeWhile, h]

lemma gameEndSinceLastClear_snoc (lines : List String) (l : String) :
    gameEndSinceLastClear (lines ++ [l])
      = (if isGameEndLine (pyStrip l) then true
         else if isWarmupLine (pyStrip l) || isShutdownLine (pyStrip l) then false
         else gameEndSinceLastClear lines) := by
  unfold gameEndSinceLastClear
  rw [List.map_append, List.reverse_append]
  simp only [List.map_cons, List.map_nil, List.reverse_cons, List.reverse_nil,
    List.nil_append, List.cons_append]
  by_cases hcl : (!isWarmupLine (pyStrip l) && !isShutdownLine (pyStrip l)) = true
  · rw [takeWhile_cons_true (fun x => !isWarmupLine x && !isShutdownLine x)
      (pyStrip l) ((List.map pyStrip lines).reverse) hcl]
    have hw : isWarmupLine (pyStrip l) = false := by
      revert hcl
      cases isWarmupLine (pyStrip l) <;> simp
    have hs : isShutdownLine (pyStrip l) = false := by
      revert hcl
      cases isShutdownLine (pyStrip l) <;> simp
    by_cases hg : isGameEndLine (pyStrip l) = true
    · simp [hg, hw, hs]
    · have hg2 : isGameEndLine (pyStrip l) = false := eq_false_of_ne_true hg
      simp [hg2, hw, hs]
  · rw [takeWhile_cons_false (fun x => !isWarmupLine x && !isShutdownLine x)
      (pyStrip l) ((List.map pyStrip lines).reverse) (eq_false_of_ne_true hcl)]
    have hor : (isWarmupLine (pyStrip l) || isShutdownLine (pyStrip l)) = true := by
      revert hcl
      cases isWarmupLine (pyStrip l) <;> cases isShutdownLine (pyStrip l) <;> simp
    have hg : isGameEndLine (pyStrip l) = false := clear_not_gameEnd hor
    simp [hg, hor]

lemma oaRun_flag (pre : List String) :
    (oaRun oaInit pre).recent_fraglimit_hit = gameEndSinceLastClear pre := by
  induction pre using List.reverseRecOn with
  | nil => rfl
  | append_singleton ls l ih =>
      rw [oaRun_snoc, oaStep_flag, gameEndSinceLastClear_snoc, ih]

lemma oaProcessMessage_shutdown (st : OAProcState) (s : String)
    (hs : isShutdownLine (pyStrip s) = true) :
    oaProcessMessage st s
      = ({ st with recent_fraglimit_hit := false },
         ⟨MessageType.SERVER_SHUTDOWN, pyStrip s,
          OAData.shutdownData
            (if st.recent_fraglimit_hit then "match_end" else "warmup_end")
            (shutdownInfo (pyStrip s)) st.recent_fraglimit_hit⟩) := by
  obtain ⟨t, hhead⟩ :=
    @listPre_cons_ex 'S' _ _ (by simpa [isShutdownLine, pyStartsWith] using hs)
  have h0 : ¬ (pyStrip s = "") := by
    intro e
    rw [e] at hs
    exact absurd hs (by decide)
  have hcc : matchClientConnect (pyStrip s) = none :=
    matchClientConnect_none_of_head hhead (by decide)
  have hcd : matchClientDisconnect (pyStrip s) = none :=
    matchClientDisconnect_none_of_head hhead (by decide)
  have hinit : ¬ (pyStrip s = "------- Game Initialization -------") :=
    str_ne_of_head _ _ 'S' '-' t (("------ Game Initialization -------").data)
      hhead rfl (by decide)
  have hge : matchGameEnd (pyStrip s) = none :=
    matchGameEnd_none_of_head hhead (by decide)
  have hwu : ¬ (pyStartsWith (pyStrip s) ("Warmup:") = true) := by
    have := isWarmupLine_false_of_head _ 'S' t hhead (by decide)
    simp [isWarmupLine] at this
    simp [this]
  have hsd : pyStartsWith (pyStrip s) ("ShutdownGame:") = true := hs
  simp only [oaProcessMessage, if_neg h0, hcc, hcd, if_neg hinit, hge,
    if_neg hwu, if_pos hsd]

/-- C5: a shutdown-marker line is classified as a match-end shutdown iff
    a GameEnd (fraglimit/timelimit) line has been processed since the
    last warmup-start or shutdown line; processing a warmup-start or
    shutdown line always leaves the one-shot flag cleared, so of two
    consecutive shutdown lines the second is never a match-end. -/
theorem oa_shutdown_classification_spec :
    (∀ (pre : List String) (s : String), isShutdownLine (pyStrip s) = true →
        (oaProcessMessage (oaRun oaInit pre) s).2
          = ⟨MessageType.SERVER_SHUTDOWN, pyStrip s,
             OAData.shutdownData
               (if gameEndSinceLastClear pre then "match_end" else "warmup_end")
               (shutdownInfo (pyStrip s)) (gameEndSinceLastClear pre)⟩)
    ∧ (∀ (st : OAProcState) (l : String),
        (isWarmupLine (pyStrip l) || isShutdownLine (pyStrip l)) = true →
        (oaProcessMessage st l).1.recent_fraglimit_hit = false)
    ∧ (∀ (st : OAProcState) (s1 s2 : String),
        isShutdownLine (pyStrip s1) = true → isShutdownLine (pyStrip s2) = true →
        (oaProcessMessage (oaProcessMessage st s1).1 s2).2
          = ⟨MessageType.SERVER_SHUTDOWN, pyStrip s2,
             OAData.shutdownData "warmup_end" (shutdownInfo (pyStrip s2)) false⟩) := by
  refine ⟨?_, ?_, ?_⟩
  · intro pre s hs
    rw [oaProcessMessage_shutdown (oaRun oaInit pre) s hs]
    rw [oaRun_flag]
  · intro st l h
    rw [oaStep_flag]
    have hg : isGameEndLine (pyStrip l) = false := clear_not_gameEnd h
    simp [hg, h]
  · intro st s1 s2 h1 h2
    rw [oaProcessMessage_shutdown st s1 h1]
    rw [oaProcessMessage_shutdown
      ({ st with recent_fraglimit_hit := false }) s2 h2]
    simp

/-- Witness for C5: a fraglimit hit followed by a shutdown classifies as
    match-end; two consecutive shutdowns give warmup-end the second
    time. -/
theorem oa_shutdown_classification_spec_witness :
    (oaProcessMessage (oaRun oaInit ["Exit: Fraglimit hit."]) "ShutdownGame:").2
      = ⟨MessageType.SERVER_SHUTDOWN, pyStrip "ShutdownGame:",
         OAData.shutdownData
           (if gameEndSinceLastClear ["Exit: Fraglimit hit."] then "match_end"
            else "warmup_end")
           (shutdownInfo (pyStrip "ShutdownGame:"))
           (gameEndSinceLastClear ["Exit: Fraglimit hit."])⟩
    ∧ (oaProcessMessage (oaProcessMessage oaInit "ShutdownGame:").1 "ShutdownGame:").2
      = ⟨MessageType.SERVER_SHUTDOWN, pyStrip "ShutdownGame:",
         OAData.shutdownData "warmup_end" (shutdownInfo (pyStrip "ShutdownGame:"))
           false⟩ :=
  ⟨oa_shutdown_classification_spec.1 ["Exit: Fraglimit hit."] "ShutdownGame:"
     (by decide),
   oa_shutdown_classification_spec.2.2 oaInit "ShutdownGame:" "ShutdownGame:"
     (by decide) (by decide)⟩
